import Mathlib

/-!
# Verification of the wallet transfer coordinator

A shallow embedding of the transfer coordinator of the `sycm-backend`
repository (`WalletService` in `src/wallet/wallet.service.ts`, together with
the entity helpers in `src/wallet/entities/*.ts`).

Modelling conventions:

* Monetary strings are parsed to exact decimal fixed-point numbers
  (`DecNum`, an integer numerator over a power of ten).  `Decimal.js` at its
  default precision of 20 significant digits performs exact arithmetic on the
  scale-2 values that reach it here, so exact arithmetic is faithful.
  JavaScript `parseFloat` produces IEEE doubles; we model the exact parsed
  value instead.  The only double-rounding visible to this code would be in
  comparisons of two values within one ulp of each other, which cannot happen
  for distinct scale-2 decimals at the magnitudes admitted by the validator
  (amounts are capped at 1e9, where doubles are exact to far below 0.005).
* JavaScript `NaN`/`Infinity` semantics of `parseFloat` are modelled exactly
  (`JsNum`), including all-comparisons-false for `NaN`.
* The database is a record of lists of rows; Redis is a pair of association
  lists (result cache and locks) with expiry ticks; a logical clock advances
  on every `new Date()` / row-timestamp write.  UUIDs are modelled by a
  freshness counter.
* `sequelize.transaction` with a managed callback commits the callback's
  writes on success and rolls back every table write on a thrown error; the
  in-memory row instances mutated by `row.update` keep their new field values
  even when the surrounding transaction rolls back, exactly as in Sequelize.
* Fallible operations return `Except Err`; thrown Nest exceptions are the
  `Err` constructors.
-/

namespace SycmWallet

/-! ## Exact decimal numbers and JavaScript number semantics -/

/-- An exact decimal number `n / 10 ^ e`. -/
structure DecNum where
  n : Int
  e : Nat
deriving Repr, DecidableEq

/-- Comparison of exact decimals (cross-multiplied). -/
def DecNum.le (a b : DecNum) : Bool :=
  decide (a.n * (10 : Int) ^ b.e ≤ b.n * (10 : Int) ^ a.e)

/-- Strict comparison of exact decimals. -/
def DecNum.lt (a b : DecNum) : Bool :=
  decide (a.n * (10 : Int) ^ b.e < b.n * (10 : Int) ^ a.e)

/-- Exact subtraction. -/
def DecNum.sub (a b : DecNum) : DecNum :=
  ⟨a.n * (10 : Int) ^ b.e - b.n * (10 : Int) ^ a.e, a.e + b.e⟩

/-- Exact addition. -/
def DecNum.add (a b : DecNum) : DecNum :=
  ⟨a.n * (10 : Int) ^ b.e + b.n * (10 : Int) ^ a.e, a.e + b.e⟩

/-- Multiply by `10 ^ k` for `k : Int` (used for exponent suffixes). -/
def DecNum.scale10 (d : DecNum) (k : Int) : DecNum :=
  if 0 ≤ k then ⟨d.n * (10 : Int) ^ k.toNat, d.e⟩ else ⟨d.n, d.e + (-k).toNat⟩

/-- A JavaScript number as produced by `parseFloat`: `NaN`, signed infinity,
or a finite value (modelled exactly, see the header note). -/
inductive JsNum where
  | nan : JsNum
  | inf (neg : Bool) : JsNum
  | fin (v : DecNum) : JsNum
deriving Repr, DecidableEq

/-- JavaScript `a <= b` (false whenever either side is `NaN`). -/
def JsNum.jsLe : JsNum → JsNum → Bool
  | .nan, _ => false
  | _, .nan => false
  | .inf true, _ => true
  | _, .inf true => false
  | _, .inf false => true
  | .inf false, _ => false
  | .fin a, .fin b => DecNum.le a b

/-- JavaScript `a < b` (false whenever either side is `NaN`). -/
def JsNum.jsLt : JsNum → JsNum → Bool
  | .nan, _ => false
  | _, .nan => false
  | .inf true, .inf true => false
  | .inf true, _ => true
  | _, .inf true => false
  | .inf false, _ => false
  | _, .inf false => true
  | .fin a, .fin b => DecNum.lt a b

/-- JavaScript `a > b`. -/
def JsNum.jsGt (a b : JsNum) : Bool := JsNum.jsLt b a

/-- JavaScript `a >= b`. -/
def JsNum.jsGe (a b : JsNum) : Bool := JsNum.jsLe b a

/-- Numeric value of a digit list, most significant first. -/
def digitsToNat (ds : List Char) : Nat :=
  ds.foldl (fun a c => 10 * a + (c.toNat - 48)) 0

/-- Exponent tail of `parseFloat`: an optional sign and digits.  `parseFloat`
only consumes the exponent when at least one digit follows, otherwise the
suffix is ignored (exponent 0). -/
def parseFloatExpTail (l : List Char) : Int :=
  let (sg, l1) : Int × List Char :=
    match l with
    | '+' :: r => (1, r)
    | '-' :: r => (-1, r)
    | _ => (1, l)
  let (ds, _) := l1.span Char.isDigit
  if ds.isEmpty then 0 else sg * Int.ofNat (digitsToNat ds)

/-- Exponent suffix of `parseFloat` (`e`/`E` plus tail), ignored if absent or
incomplete. -/
def parseFloatExp (l : List Char) : Int :=
  match l with
  | 'e' :: rest => parseFloatExpTail rest
  | 'E' :: rest => parseFloatExpTail rest
  | _ => 0

/-- JavaScript `parseFloat`: skip leading whitespace, optional sign,
`Infinity` or a decimal mantissa with optional exponent; parses the longest
valid prefix and returns `NaN` when no numeric prefix exists. -/
def parseFloatJS (s : String) : JsNum :=
  let l := s.data.dropWhile fun c =>
    c == ' ' || c == '\t' || c == '\n' || c == '\r'
  let (neg, l1) : Bool × List Char :=
    match l with
    | '-' :: r => (true, r)
    | '+' :: r => (false, r)
    | _ => (false, l)
  if l1.take 8 = ['I', 'n', 'f', 'i', 'n', 'i', 't', 'y'] then .inf neg
  else
    let (ip, r1) := l1.span Char.isDigit
    let (fp, r2) :=
      match r1 with
      | '.' :: rest => rest.span Char.isDigit
      | _ => (([] : List Char), r1)
    if ip.isEmpty ∧ fp.isEmpty then .nan
    else
      let mant : Int :=
        (if neg then -1 else 1) * Int.ofNat (digitsToNat (ip ++ fp))
      .fin (DecNum.scale10 ⟨mant, fp.length⟩ (parseFloatExp r2))

/-- Exponent suffix accepted by the `Decimal.js` constructor: optional sign
then digits, consuming the whole rest of the string. -/
def decimalExpTail (l : List Char) : Option Int :=
  let (sg, l1) : Int × List Char :=
    match l with
    | '+' :: r => (1, r)
    | '-' :: r => (-1, r)
    | _ => (1, l)
  let (ds, r2) := l1.span Char.isDigit
  if ds.isEmpty ∨ ¬r2.isEmpty then none else some (sg * Int.ofNat (digitsToNat ds))

/-- The `Decimal.js` constructor on a string: strict grammar
`[+-] digits [. digits] [e [+-] digits]` (one of the digit groups may be
empty but not both), no surrounding junk; invalid input throws, modelled as
`none`.  (`Decimal.js` also accepts `NaN`/`Infinity` literals; those cannot
reach this code through `transfer` because the amount has already passed the
range guards and wallet balances are canonical `DECIMAL(20,2)` strings.) -/
def decimalParse (s : String) : Option DecNum :=
  let (neg, l1) : Bool × List Char :=
    match s.data with
    | '-' :: r => (true, r)
    | '+' :: r => (false, r)
    | l => (false, l)
  let (ip, r1) := l1.span Char.isDigit
  let (fp, r2) :=
    match r1 with
    | '.' :: rest => rest.span Char.isDigit
    | _ => (([] : List Char), r1)
  if ip.isEmpty ∧ fp.isEmpty then none
  else
    let mant : DecNum :=
      ⟨(if neg then -1 else 1) * Int.ofNat (digitsToNat (ip ++ fp)), fp.length⟩
    match r2 with
    | [] => some mant
    | 'e' :: rest => (decimalExpTail rest).map mant.scale10
    | 'E' :: rest => (decimalExpTail rest).map mant.scale10
    | _ => none

/-- Half-up division of non-negative numerator `v` by positive `d`. -/
def halfUpDivPos (v d : Nat) : Nat := (2 * v + d) / (2 * d)

/-- The value of `x` in cents, rounded half-up away from zero
(the `Decimal.js` default `ROUND_HALF_UP` used by `toFixed`). -/
def roundHalfUpCents (x : DecNum) : Int :=
  let num := x.n * 100
  let den := (10 : Nat) ^ x.e
  if 0 ≤ num then Int.ofNat (halfUpDivPos num.toNat den)
  else -Int.ofNat (halfUpDivPos (-num).toNat den)

/-- Zero-padded two-digit fraction part. -/
def pad2 (n : Nat) : String := if n < 10 then "0" ++ toString n else toString n

/-- Canonical two-decimal rendering of a non-negative cent count. -/
def centsToStringNat (c : Nat) : String :=
  toString (c / 100) ++ "." ++ pad2 (c % 100)

/-- Canonical two-decimal rendering of a cent count, as produced by
`Decimal.prototype.toFixed(2)`. -/
def centsToString (c : Int) : String :=
  if c < 0 then "-" ++ centsToStringNat (-c).toNat else centsToStringNat c.toNat

/-- `x.toFixed(2)` on a `Decimal` value. -/
def DecNum.toFixed2 (x : DecNum) : String := centsToString (roundHalfUpCents x)

/-! ## Data model (entities of `src/wallet/entities`) -/

/-- `WalletStatus` enum. -/
inductive WalletStatus where
  | ACTIVE | SUSPENDED | CLOSED
deriving Repr, DecidableEq

/-- `TransactionStatus` enum. -/
inductive TransactionStatus where
  | PENDING | PROCESSING | COMPLETED | FAILED | ROLLED_BACK
deriving Repr, DecidableEq

/-- `TransactionType` enum. -/
inductive TransactionType where
  | TRANSFER | DEPOSIT | WITHDRAWAL | REFUND
deriving Repr, DecidableEq

/-- `LedgerEntryType` enum. -/
inductive LedgerEntryType where
  | DEBIT | CREDIT
deriving Repr, DecidableEq

/-- A `wallets` row.  `balance` is the `DECIMAL(20,2)` column, which
Sequelize surfaces as a string. -/
structure Wallet where
  id : String
  ownerId : String
  balance : String
  currency : String
  status : WalletStatus
  version : Nat
deriving Repr, DecidableEq

/-- `Wallet.isActive`. -/
def Wallet.isActive (w : Wallet) : Bool := decide (w.status = .ACTIVE)

/-- `Wallet.hasAvailableBalance`: the source compares
`parseFloat(this.balance) >= parseFloat(amount)` — an IEEE-double
comparison, exact on this domain (see the header note). -/
def Wallet.hasAvailableBalance (w : Wallet) (amount : String) : Bool :=
  JsNum.jsGe (parseFloatJS w.balance) (parseFloatJS amount)

/-- A `transaction_logs` row.  The UUID primary key is modelled by a fresh
natural number; `completed_at`/`updated_at` are logical-clock ticks. -/
structure TransactionLog where
  id : Nat
  idempotencyKey : String
  type : TransactionType
  fromWalletId : String
  toWalletId : String
  amount : String
  currency : String
  status : TransactionStatus
  description : Option String
  errorMessage : Option String
  completedAt : Option Nat
  updatedAt : Nat
deriving Repr, DecidableEq

/-- `TransactionLog.isCompleted`. -/
def TransactionLog.isCompleted (l : TransactionLog) : Bool :=
  decide (l.status = .COMPLETED)

/-- A `ledger_entries` row (its own UUID and timestamps are irrelevant to
every claim and omitted). -/
structure LedgerEntry where
  transactionId : Nat
  walletId : String
  type : LedgerEntryType
  amount : String
  currency : String
  balanceAfter : String
  description : String
deriving Repr, DecidableEq

/-! ## DTOs and errors -/

/-- The wallet summary inside a `TransferResponseDto`. -/
structure WalletRef where
  id : String
  newBalance : String
deriving Repr, DecidableEq

/-- `TransferResponseDto`. -/
structure TransferResponseDto where
  success : Bool
  transactionId : Nat
  status : TransactionStatus
  fromWallet : WalletRef
  toWallet : WalletRef
  timestamp : Nat
deriving Repr, DecidableEq

/-- `TransferDto` (metadata is never read by the service and omitted). -/
structure TransferDto where
  idempotencyKey : String
  fromWalletId : String
  toWalletId : String
  amount : String
  currency : Option String
  description : Option String
deriving Repr, DecidableEq

/-- Thrown Nest exceptions.  `insufficientFunds` is the
`BadRequestException` carrying the `INSUFFICIENT_FUNDS` body with
`{available, required}`; `decimalInvalid` is the error thrown by the
`Decimal` constructor on a malformed string. -/
inductive Err where
  | badRequest (msg : String)
  | insufficientFunds (available required : String)
  | notFound (msg : String)
  | conflict (msg : String)
  | decimalInvalid
deriving Repr, DecidableEq

/-- `error.message`, as stored into `error_message` by the FAILED update. -/
def Err.message : Err → String
  | .badRequest m => m
  | .insufficientFunds _ _ => "Wallet balance insufficient for transfer"
  | .notFound m => m
  | .conflict m => m
  | .decimalInvalid => "[DecimalError] Invalid argument"

/-- External-I/O events, in program order: the Redis reads/writes and the
database statements issued by one invocation. -/
inductive Ev where
  | redisGet (key : String)
  | redisSetNX (key : String)
  | redisSetEx (key : String)
  | redisDel (key : String)
  | dbRead (what : String)
  | dbWrite (what : String)
  | dbLogInsert (key : String)
  | lockWallet (id : String)
deriving Repr, DecidableEq

/-- The world state: the three tables, the Redis result cache and lock
keyspaces (value with expiry tick), a logical clock, and the UUID freshness
counter. -/
structure St where
  wallets : List Wallet
  logs : List TransactionLog
  entries : List LedgerEntry
  cache : List (String × TransferResponseDto × Nat)
  locks : List (String × Nat)
  clock : Nat
  nextId : Nat
deriving Repr, DecidableEq

/-- `new Date()`: read the clock and advance it. -/
def now (s : St) : Nat × St := (s.clock, { s with clock := s.clock + 1 })

/-- `walletModel.findByPk(id)`. -/
def findWallet (s : St) (id : String) : Option Wallet :=
  s.wallets.find? fun w => w.id == id

/-- `transactionLogModel.findOne({where: {idempotencyKey}})`. -/
def findLogByKey (s : St) (key : String) : Option TransactionLog :=
  s.logs.find? fun l => l.idempotencyKey == key

/-- JavaScript `a || b` on an optional string (empty string is falsy). -/
def jsOrElse (a : Option String) (b : String) : String :=
  match a with
  | some v => if v = "" then b else v
  | none => b

/-! ## Redis operations -/

/-- `redis.get('idempotency:' + key)` with TTL semantics. -/
def redisGetCache (s : St) (key : String) : Option TransferResponseDto :=
  match s.cache.find? (fun kv => kv.1 == key) with
  | some (_, r, exp) => if s.clock < exp then some r else none
  | none => none

/-- `cacheResult`: `SETEX idempotency:{k} 86400 json(result)`. -/
def cacheResult (s : St) (key : String) (r : TransferResponseDto) :
    St × List Ev :=
  ({ s with cache := (key, r, s.clock + 86400) ::
      s.cache.filter (fun kv => kv.1 != key) }, [.redisSetEx key])

/-- `acquireLock`: `SET lock:{k} 1 EX 30 NX`; fails while an unexpired lease
exists. -/
def acquireLock (s : St) (key : String) : Bool × St × List Ev :=
  match s.locks.find? (fun kv => kv.1 == key) with
  | some (_, exp) =>
      if s.clock < exp then (false, s, [.redisSetNX key])
      else (true, { s with locks := (key, s.clock + 30) ::
              s.locks.filter (fun kv => kv.1 != key) }, [.redisSetNX key])
  | none =>
      (true, { s with locks := (key, s.clock + 30) :: s.locks },
       [.redisSetNX key])

/-- `releaseLock`: `DEL lock:{k}`. -/
def releaseLock (s : St) (key : String) : St × List Ev :=
  ({ s with locks := s.locks.filter (fun kv => kv.1 != key) }, [.redisDel key])

/-! ## Row updates -/

/-- Persist an updated log instance to its row (match on primary key). -/
def writeLog (s : St) (lg : TransactionLog) : St :=
  { s with logs := s.logs.map fun l => if l.id = lg.id then lg else l }

/-- `transactionLog.update({status})`: mutate the instance and its row;
Sequelize refreshes `updated_at`. -/
def updateLogStatus (s : St) (lg : TransactionLog) (st : TransactionStatus) :
    TransactionLog × St :=
  let (t, s1) := now s
  let lg1 := { lg with status := st, updatedAt := t }
  (lg1, writeLog s1 lg1)

/-- `transactionLog.update({status: COMPLETED, completedAt: new Date()})`. -/
def updateLogCompleted (s : St) (lg : TransactionLog) : TransactionLog × St :=
  let (t, s1) := now s
  let lg1 := { lg with
    status := .COMPLETED
    completedAt := some t
    updatedAt := t }
  (lg1, writeLog s1 lg1)

/-- `transactionLog.update({status: FAILED, errorMessage})` (outside the
main transaction). -/
def updateLogFailed (s : St) (lg : TransactionLog) (msg : String) :
    TransactionLog × St :=
  let (t, s1) := now s
  let lg1 := { lg with
    status := .FAILED
    errorMessage := some msg
    updatedAt := t }
  (lg1, writeLog s1 lg1)

/-- `walletModel.update({balance, version: expVersion + 1},
{where: {id, version: expVersion}})`: updates every row matching both the
primary key and the version predicate, returning the affected-row count
(the source reads it as `[fromUpdated]`). -/
def updateWalletsVersioned (ws : List Wallet) (id : String)
    (expVersion : Nat) (newBalance : String) : Nat × List Wallet :=
  match ws with
  | [] => (0, [])
  | w :: rest =>
    let (c, rest') := updateWalletsVersioned rest id expVersion newBalance
    if w.id = id ∧ w.version = expVersion then
      (c + 1, { w with balance := newBalance, version := expVersion + 1 } :: rest')
    else (c, w :: rest')

/-! ## The WalletService operations (`src/wallet/wallet.service.ts`) -/

/-- `validateTransferRequest` (lines 385-398): same-wallet guard, then the
two range guards on `parseFloat(amount)`.  Returns the thrown error, if
any. -/
def validateTransferRequest (dto : TransferDto) : Option Err :=
  if dto.fromWalletId = dto.toWalletId then
    some (.badRequest "Cannot transfer to the same wallet")
  else
    let amount := parseFloatJS dto.amount
    if amount.jsLe (.fin ⟨0, 0⟩) then
      some (.badRequest "Amount must be greater than 0")
    else if amount.jsGt (.fin ⟨1000000000, 0⟩) then
      some (.badRequest "Amount exceeds maximum allowed value")
    else none

/-- `getCachedResult` (lines 426-464): rebuild a response from the log row
and the wallets' *current* balances; `timestamp` is
`completedAt || updatedAt`.  Read-only. -/
def getCachedResult (s : St) (lg : TransactionLog) :
    Except Err TransferResponseDto × List Ev :=
  let evs := [Ev.dbRead lg.fromWalletId, Ev.dbRead lg.toWalletId]
  match findWallet s lg.fromWalletId with
  | none => (.error (.notFound "Source wallet not found"), evs)
  | some fw =>
    match findWallet s lg.toWalletId with
    | none => (.error (.notFound "Destination wallet not found"), evs)
    | some tw =>
      if ¬fw.isActive then
        (.error (.badRequest "Source wallet is not active"), evs)
      else if ¬tw.isActive then
        (.error (.badRequest "Destination wallet is not active"), evs)
      else
        (.ok { success := true
               transactionId := lg.id
               status := lg.status
               fromWallet := ⟨fw.id, fw.balance⟩
               toWallet := ⟨tw.id, tw.balance⟩
               timestamp := lg.completedAt.getD lg.updatedAt }, evs)

/-- `checkIdempotency` (lines 403-421): Redis result cache first, then the
log table; a COMPLETED row is resynthesized via `getCachedResult` (whose
wallet-state exceptions propagate).  Read-only. -/
def checkIdempotency (s : St) (key : String) :
    Except Err (Option TransferResponseDto) × List Ev :=
  match redisGetCache s key with
  | some r => (.ok (some r), [.redisGet key])
  | none =>
    let evs0 := [Ev.redisGet key, Ev.dbRead "transaction_logs"]
    match findLogByKey s key with
    | some lg =>
      if lg.isCompleted then
        match getCachedResult s lg with
        | (.ok r, evs) => (.ok (some r), evs0 ++ evs)
        | (.error e, evs) => (.error e, evs0 ++ evs)
      else (.ok none, evs0)
    | none => (.ok none, evs0)

/-- The argument record of `createTransactionLog`. -/
structure LogData where
  idempotencyKey : String
  fromWalletId : String
  toWalletId : String
  amount : String
  currency : String
  description : Option String
  type : TransactionType
deriving Repr, DecidableEq

/-- `createTransactionLog` (lines 345-380): insert a PENDING row; on the
unique-key violation re-read the existing row; when it is COMPLETED the
source computes `getCachedResult(existing)` and then returns `existing`
itself (the instance, not the synthesized result); otherwise it throws
`ConflictException`.  A `getCachedResult` exception propagates out of the
catch block. -/
def createTransactionLog (s : St) (d : LogData) :
    Except Err TransactionLog × St × List Ev :=
  match findLogByKey s d.idempotencyKey with
  | none =>
    let (t, s1) := now s
    let lg : TransactionLog :=
      { id := s1.nextId
        idempotencyKey := d.idempotencyKey
        type := d.type
        fromWalletId := d.fromWalletId
        toWalletId := d.toWalletId
        amount := d.amount
        currency := d.currency
        status := .PENDING
        description := d.description
        errorMessage := none
        completedAt := none
        updatedAt := t }
    (.ok lg,
     { s1 with logs := s1.logs ++ [lg], nextId := s1.nextId + 1 },
     [.dbLogInsert d.idempotencyKey])
  | some existing =>
    let evs0 := [Ev.dbLogInsert d.idempotencyKey, Ev.dbRead "transaction_logs"]
    if existing.isCompleted then
      match getCachedResult s existing with
      | (.ok _, evs) => (.ok existing, s, evs0 ++ evs)
      | (.error e, evs) => (.error e, s, evs0 ++ evs)
    else
      (.error (.conflict
        "Transaction with this idempotency key is already being processed"),
       s, evs0)

/-- `createLedgerEntries` (lines 302-340): unconditionally insert the DEBIT
row then the CREDIT row; the debit description defaults to
`'Transfer out'`, the credit one to `''` (`d || ''` is the identity on the
string already supplied).  No verification of any kind is performed. -/
def createLedgerEntries (s : St) (transactionId : Nat)
    (fromWalletId toWalletId amount currency fromBalanceAfter toBalanceAfter
     description : String) : St × List Ev :=
  let debit : LedgerEntry :=
    { transactionId := transactionId
      walletId := fromWalletId
      type := .DEBIT
      amount := amount
      currency := currency
      balanceAfter := fromBalanceAfter
      description := if description = "" then "Transfer out" else description }
  let credit : LedgerEntry :=
    { transactionId := transactionId
      walletId := toWalletId
      type := .CREDIT
      amount := amount
      currency := currency
      balanceAfter := toBalanceAfter
      description := description }
  ({ s with entries := s.entries ++ [debit, credit] },
   [.dbWrite "ledger_entries", .dbWrite "ledger_entries"])

/-- Lines 205-213: `new Decimal` on the three strings, then
`minus`/`plus` and `toFixed(2)`.  A malformed string throws (`none`). -/
def computeNewBalances (amount fromBalance toBalance : String) :
    Option (String × String) :=
  match decimalParse amount, decimalParse fromBalance, decimalParse toBalance with
  | some a, some fb, some tb => some ((fb.sub a).toFixed2, (tb.add a).toFixed2)
  | _, _, _ => none

/-- `if (fromUpdated === 0 || toUpdated === 0) throw ConflictException`
(lines 245-249). -/
def checkUpdateCounts (fromUpdated toUpdated : Nat) : Except Err Unit :=
  if fromUpdated = 0 ∨ toUpdated = 0 then
    .error (.conflict "Wallet was modified by another transaction. Please retry.")
  else .ok ()

/-- Roll the three tables back to their pre-transaction contents (the
managed `sequelize.transaction` aborts on a thrown error); the clock and
the in-memory instances keep their values. -/
def rollbackTo (s0 s : St) : St :=
  { s with wallets := s0.wallets, logs := s0.logs, entries := s0.entries }

/-- `executeTransfer` (lines 132-297): the SERIALIZABLE section.  Marks the
log PROCESSING, locks and checks both wallets (source first, then
destination, in source order), checks the balance, computes the new
balances, performs the two versioned updates, inserts the ledger pair,
marks the log COMPLETED, and builds the response.  Any error rolls the
tables back.  Returns the result, the in-memory log instance, the state,
and the event trace.  (The source repeats the balance check verbatim at
lines 193-203; the second occurrence can never fire and is not duplicated
here.) -/
def executeTransfer (s0 : St) (lg : TransactionLog) (dto : TransferDto) :
    Except Err TransferResponseDto × TransactionLog × St × List Ev :=
  let (lg1, s1) := updateLogStatus s0 lg .PROCESSING
  let evs1 := [Ev.dbWrite "transaction_logs", Ev.lockWallet dto.fromWalletId]
  match findWallet s1 dto.fromWalletId with
  | none => (.error (.notFound "Source wallet not found"), lg1, rollbackTo s0 s1, evs1)
  | some fromWallet =>
    if ¬fromWallet.isActive then
      (.error (.badRequest "Source wallet is not active"), lg1, rollbackTo s0 s1, evs1)
    else
      let evs2 := evs1 ++ [Ev.lockWallet dto.toWalletId]
      match findWallet s1 dto.toWalletId with
      | none => (.error (.notFound "Destination wallet not found"), lg1, rollbackTo s0 s1, evs2)
      | some toWallet =>
        if ¬toWallet.isActive then
          (.error (.badRequest "Destination wallet is not active"), lg1,
           rollbackTo s0 s1, evs2)
        else if ¬fromWallet.hasAvailableBalance dto.amount then
          (.error (.insufficientFunds fromWallet.balance dto.amount), lg1,
           rollbackTo s0 s1, evs2)
        else
          match computeNewBalances dto.amount fromWallet.balance toWallet.balance with
          | none => (.error .decimalInvalid, lg1, rollbackTo s0 s1, evs2)
          | some (newFromBalance, newToBalance) =>
            let (fromUpdated, ws1) :=
              updateWalletsVersioned s1.wallets fromWallet.id fromWallet.version
                newFromBalance
            let (toUpdated, ws2) :=
              updateWalletsVersioned ws1 toWallet.id toWallet.version newToBalance
            let s2 := { s1 with wallets := ws2 }
            let evs3 := evs2 ++ [Ev.dbWrite "wallets", Ev.dbWrite "wallets"]
            match checkUpdateCounts fromUpdated toUpdated with
            | .error e => (.error e, lg1, rollbackTo s0 s2, evs3)
            | .ok _ =>
              let (s3, evs4) := createLedgerEntries s2 lg1.id fromWallet.id
                toWallet.id dto.amount (jsOrElse dto.currency "NGN")
                newFromBalance newToBalance (dto.description.getD "")
              let (lg2, s4) := updateLogCompleted s3 lg1
              let (t2, s5) := now s4
              (.ok { success := true
                     transactionId := lg1.id
                     status := .COMPLETED
                     fromWallet := ⟨fromWallet.id, newFromBalance⟩
                     toWallet := ⟨toWallet.id, newToBalance⟩
                     timestamp := t2 },
               lg2, s5, evs3 ++ evs4 ++ [Ev.dbWrite "transaction_logs"])

/-- The try/catch/finally block of `transfer` (lines 87-126), entered with
the lease held: durable intent, serializable section, result caching; on an
error after the log insert the row is marked FAILED outside the
transaction; the lease is always released. -/
def transferTryBlock (s : St) (dto : TransferDto) :
    Except Err TransferResponseDto × St × List Ev :=
  match createTransactionLog s
      { idempotencyKey := dto.idempotencyKey
        fromWalletId := dto.fromWalletId
        toWalletId := dto.toWalletId
        amount := dto.amount
        currency := jsOrElse dto.currency "NGN"
        description := dto.description
        type := .TRANSFER } with
  | (.error e, s1, evs1) =>
    let (s2, evs2) := releaseLock s1 dto.idempotencyKey
    (.error e, s2, evs1 ++ evs2)
  | (.ok lg, s1, evs1) =>
    match executeTransfer s1 lg dto with
    | (.ok result, _, s2, evs2) =>
      let (s3, evs3) := cacheResult s2 dto.idempotencyKey result
      let (s4, evs4) := releaseLock s3 dto.idempotencyKey
      (.ok result, s4, evs1 ++ evs2 ++ evs3 ++ evs4)
    | (.error e, lgAfter, s2, evs2) =>
      let (_, s3) := updateLogFailed s2 lgAfter e.message
      let (s4, evs4) := releaseLock s3 dto.idempotencyKey
      (.error e, s4, evs1 ++ evs2 ++ [Ev.dbWrite "transaction_logs"] ++ evs4)

/-- `transfer` (lines 57-127): idempotency check, validation, lease
acquisition, then the try block. -/
def transfer (s : St) (dto : TransferDto) :
    Except Err TransferResponseDto × St × List Ev :=
  match checkIdempotency s dto.idempotencyKey with
  | (.error e, evs) => (.error e, s, evs)
  | (.ok (some r), evs) => (.ok r, s, evs)
  | (.ok none, evs0) =>
    match validateTransferRequest dto with
    | some e => (.error e, s, evs0)
    | none =>
      match acquireLock s dto.idempotencyKey with
      | (false, s1, evs1) =>
        (.error (.conflict
          "Another request with the same idempotency key is being processed"),
         s1, evs0 ++ evs1)
      | (true, s1, evs1) =>
        let (r, s2, evs2) := transferTryBlock s1 dto
        (r, s2, evs0 ++ evs1 ++ evs2)

/-! ## Sequential execution traces -/

/-- One external action: a `Transfer` invocation or the passage of time. -/
inductive Act where
  | transfer (dto : TransferDto)
  | advance (n : Nat)

/-- Apply one action to the world state. -/
def stepAct (s : St) : Act → St
  | .transfer dto => (transfer s dto).2.1
  | .advance n => { s with clock := s.clock + n }

/-- Run a sequence of actions. -/
def runActs (s : St) (acts : List Act) : St := acts.foldl stepAct s

/-- The wallet-ids of the row-lock events of a trace, in program order. -/
def lockIds (tr : List Ev) : List String :=
  tr.filterMap fun e =>
    match e with
    | .lockWallet i => some i
    | _ => none

/-! ## General lemmas about the operations -/

/-- `checkIdempotency` yields `ok none` when the cache misses and no
COMPLETED row exists for the key. -/
theorem checkIdempotency_none_of (s : St) (k : String)
    (hc : redisGetCache s k = none)
    (hl : ∀ lg, findLogByKey s k = some lg → lg.status ≠ .COMPLETED) :
    checkIdempotency s k = (.ok none, [.redisGet k, .dbRead "transaction_logs"]) := by
  unfold checkIdempotency
  rw [hc]
  cases hfind : findLogByKey s k with
  | none => rfl
  | some lg => simp [TransactionLog.isCompleted, hl lg hfind]

/-- The second component of `getCachedResult` is always the pair of wallet
reads. -/
theorem getCachedResult_events (s : St) (lg : TransactionLog) :
    (getCachedResult s lg).2 =
      [Ev.dbRead lg.fromWalletId, Ev.dbRead lg.toWalletId] := by
  unfold getCachedResult
  repeat' split
  all_goals rfl

/-- Conversely, `ok none` from `checkIdempotency` forces a cache miss and
the absence of a COMPLETED row. -/
theorem checkIdempotency_ok_none (s : St) (k : String)
    (h : (checkIdempotency s k).1 = .ok none) :
    redisGetCache s k = none ∧
      ∀ lg, findLogByKey s k = some lg → lg.status ≠ .COMPLETED := by
  unfold checkIdempotency at h
  cases hc : redisGetCache s k with
  | some r => simp [hc] at h
  | none =>
    simp only [hc] at h
    refine ⟨rfl, fun lg hfind hcomp => ?_⟩
    simp only [hfind] at h
    have hic : lg.isCompleted = true := by
      simp [TransactionLog.isCompleted, hcomp]
    simp only [hic, if_true] at h
    cases hg : getCachedResult s lg with
    | mk res evs =>
      simp only [hg] at h
      cases res <;> simp at h

/-- The events of `checkIdempotency` are reads only: no lease acquisition
and no log insert ever appears in its trace. -/
theorem checkIdempotency_events_read_only (s : St) (k : String) (k2 : String) :
    Ev.redisSetNX k2 ∉ (checkIdempotency s k).2 ∧
      Ev.dbLogInsert k2 ∉ (checkIdempotency s k).2 := by
  unfold checkIdempotency
  cases hc : redisGetCache s k with
  | some r => simp [hc]
  | none =>
    simp only [hc]
    cases hfind : findLogByKey s k with
    | none => simp
    | some lg =>
      simp only [hfind]
      by_cases hic : lg.isCompleted = true
      · simp only [hic, if_true]
        cases hg : getCachedResult s lg with
        | mk res evs =>
          have hevs : evs = [Ev.dbRead lg.fromWalletId, Ev.dbRead lg.toWalletId] := by
            have := getCachedResult_events s lg
            rw [hg] at this
            exact this
          cases res <;> simp [hevs]
      · simp [hic]

/-- A request that passes validation has distinct wallets. -/
theorem validate_none_ne (dto : TransferDto)
    (h : validateTransferRequest dto = none) :
    dto.fromWalletId ≠ dto.toWalletId := by
  intro he
  unfold validateTransferRequest at h
  simp [he] at h

/-- The affected-row count of the versioned wallet update is the number of
rows matching both the primary key and the version predicate, and the rows
are rewritten pointwise: matched rows get the new balance and the bumped
version, others are untouched. -/
theorem updateWallets_spec (ws : List Wallet) (id : String) (v : Nat)
    (nb : String) :
    (updateWalletsVersioned ws id v nb).1 =
      (ws.filter fun w => decide (w.id = id ∧ w.version = v)).length ∧
    (updateWalletsVersioned ws id v nb).2 =
      ws.map fun w =>
        if w.id = id ∧ w.version = v then
          { w with balance := nb, version := v + 1 } else w := by
  induction ws with
  | nil => simp [updateWalletsVersioned]
  | cons w rest ih =>
    unfold updateWalletsVersioned
    by_cases hw : w.id = id ∧ w.version = v <;>
      simp [hw, ih.1, ih.2, List.filter_cons]

/-- If every row carrying the key has a different version than expected,
the versioned update touches zero rows and leaves the table unchanged. -/
theorem updateWallets_zero_of_stale (ws : List Wallet) (id : String) (v : Nat)
    (nb : String) (h : ∀ w ∈ ws, w.id = id → w.version ≠ v) :
    updateWalletsVersioned ws id v nb = (0, ws) := by
  induction ws with
  | nil => rfl
  | cons w rest ih =>
    unfold updateWalletsVersioned
    rw [ih fun x hx => h x (List.mem_cons_of_mem _ hx)]
    have : ¬(w.id = id ∧ w.version = v) := fun ⟨h1, h2⟩ =>
      h w (List.mem_cons_self _ _) h1 h2
    simp [this]

/-- The row found for the updated key, when its version matches, is
rewritten in place: a lookup after the update sees the new balance and the
incremented version. -/
theorem updateWallets_find_self (ws : List Wallet) (id : String) (v : Nat)
    (nb : String) (w : Wallet)
    (hf : ws.find? (fun x => x.id == id) = some w) (hv : w.version = v) :
    ((updateWalletsVersioned ws id v nb).2).find? (fun x => x.id == id) =
      some { w with balance := nb, version := v + 1 } := by
  induction ws with
  | nil => simp at hf
  | cons x rest ih =>
    unfold updateWalletsVersioned
    by_cases hx : x.id = id
    · have hxw : x = w := by
        rw [List.find?_cons_of_pos _ (by simp [hx])] at hf
        exact Option.some.inj hf
      subst hxw
      simp only [hx, hv, and_self, if_pos, true_and]
      exact List.find?_cons_of_pos _ (by simp)
    · rw [List.find?_cons_of_neg _ (by simp [hx])] at hf
      have hcond : ¬(x.id = id ∧ x.version = v) := fun hc => hx hc.1
      simp only [hcond, if_neg, not_false_iff]
      rw [List.find?_cons_of_neg _ (by simp [hx])]
      exact ih hf

/-- A versioned update on one key does not change lookups for any other
key. -/
theorem updateWallets_find_other (ws : List Wallet) (id : String) (v : Nat)
    (nb : String) (id2 : String) (hne : id2 ≠ id) :
    ((updateWalletsVersioned ws id v nb).2).find? (fun x => x.id == id2) =
      ws.find? (fun x => x.id == id2) := by
  induction ws with
  | nil => rfl
  | cons x rest ih =>
    unfold updateWalletsVersioned
    by_cases hcond : x.id = id ∧ x.version = v
    · have hx2 : (x.id == id2) = false := by
        rw [hcond.1]
        exact beq_eq_false_iff_ne.mpr (Ne.symm hne)
      have hne2 : ¬id = id2 := Ne.symm hne
      simp only [hcond, if_pos, and_self, true_and]
      rw [List.find?_cons_of_neg _ (by simp [hx2, hcond.1, hne2]),
        List.find?_cons_of_neg _ (by simp [hx2])]
      exact ih
    · simp only [hcond, if_neg, not_false_iff]
      by_cases hx2 : x.id = id2
      · rw [List.find?_cons_of_pos _ (by simp [hx2]),
          List.find?_cons_of_pos _ (by simp [hx2])]
      · rw [List.find?_cons_of_neg _ (by simp [hx2]),
          List.find?_cons_of_neg _ (by simp [hx2])]
        exact ih

/-- The versioned update touches at least one row when the key's first row
carries the expected version. -/
theorem updateWallets_count_pos (ws : List Wallet) (id : String) (v : Nat)
    (nb : String) (w : Wallet)
    (hf : ws.find? (fun x => x.id == id) = some w) (hv : w.version = v) :
    (updateWalletsVersioned ws id v nb).1 ≠ 0 := by
  induction ws with
  | nil => simp at hf
  | cons x rest ih =>
    unfold updateWalletsVersioned
    by_cases hcond : x.id = id ∧ x.version = v
    · simp [hcond]
    · intro hzero
      by_cases hx : x.id = id
      · rw [List.find?_cons_of_pos _ (by simp [hx])] at hf
        have hxw : x = w := Option.some.inj hf
        exact hcond ⟨hx, hxw ▸ hv⟩
      · rw [List.find?_cons_of_neg _ (by simp [hx])] at hf
        refine ih hf ?_
        simpa [hcond] using hzero

/-- On any thrown error the serializable section rolls back: the tables,
the cache, the locks and the freshness counter are unchanged, and the
returned in-memory instance keeps the row's identity fields. -/
theorem executeTransfer_error (s : St) (lg : TransactionLog) (dto : TransferDto)
    (e : Err) (lg2 : TransactionLog) (s2 : St) (tr : List Ev)
    (h : executeTransfer s lg dto = (.error e, lg2, s2, tr)) :
    s2.wallets = s.wallets ∧ s2.logs = s.logs ∧ s2.entries = s.entries ∧
    s2.nextId = s.nextId ∧ s2.cache = s.cache ∧ s2.locks = s.locks ∧
    lg2.id = lg.id ∧ lg2.idempotencyKey = lg.idempotencyKey ∧
    lg2.amount = lg.amount ∧ lg2.fromWalletId = lg.fromWalletId ∧
    lg2.toWalletId = lg.toWalletId ∧ lg2.currency = lg.currency := by
  simp only [executeTransfer, updateLogStatus, updateLogCompleted, now,
    writeLog, rollbackTo, createLedgerEntries, checkUpdateCounts] at h
  repeat' split at h
  all_goals simp only [Prod.mk.injEq] at h
  all_goals try simp at h
  all_goals obtain ⟨h1, h2, h3, h4⟩ := h
  all_goals subst h2; subst h3
  all_goals simp

/-- Characterization of a successful serializable section: both wallets
were found and active, the balance check passed, both versioned updates
touched rows, the tables gained exactly the balanced ledger pair and the
COMPLETED rewrite of the log row, and the response carries the computed
balances. -/
theorem executeTransfer_ok (s : St) (lg : TransactionLog) (dto : TransferDto)
    (r : TransferResponseDto) (lg2 : TransactionLog) (s2 : St) (tr : List Ev)
    (h : executeTransfer s lg dto = (.ok r, lg2, s2, tr)) :
    ∃ fromW toW nf nt,
      findWallet s dto.fromWalletId = some fromW ∧
      findWallet s dto.toWalletId = some toW ∧
      fromW.isActive = true ∧ toW.isActive = true ∧
      fromW.hasAvailableBalance dto.amount = true ∧
      computeNewBalances dto.amount fromW.balance toW.balance = some (nf, nt) ∧
      (updateWalletsVersioned s.wallets fromW.id fromW.version nf).1 ≠ 0 ∧
      (updateWalletsVersioned
        (updateWalletsVersioned s.wallets fromW.id fromW.version nf).2
        toW.id toW.version nt).1 ≠ 0 ∧
      s2.wallets = (updateWalletsVersioned
        (updateWalletsVersioned s.wallets fromW.id fromW.version nf).2
        toW.id toW.version nt).2 ∧
      lg2 = { lg with
              status := .COMPLETED
              completedAt := some (s.clock + 1)
              updatedAt := s.clock + 1 } ∧
      s2.logs = s.logs.map (fun l => if l.id = lg.id then lg2 else l) ∧
      s2.entries = s.entries ++
        [{ transactionId := lg.id
           walletId := fromW.id
           type := .DEBIT
           amount := dto.amount
           currency := jsOrElse dto.currency "NGN"
           balanceAfter := nf
           description := if dto.description.getD "" = "" then "Transfer out"
             else dto.description.getD "" },
         { transactionId := lg.id
           walletId := toW.id
           type := .CREDIT
           amount := dto.amount
           currency := jsOrElse dto.currency "NGN"
           balanceAfter := nt
           description := dto.description.getD "" }] ∧
      s2.nextId = s.nextId ∧ s2.cache = s.cache ∧ s2.locks = s.locks ∧
      s2.clock = s.clock + 3 ∧
      r = { success := true, transactionId := lg.id, status := .COMPLETED
            fromWallet := ⟨fromW.id, nf⟩, toWallet := ⟨toW.id, nt⟩
            timestamp := s.clock + 2 } := by
  simp only [executeTransfer, updateLogStatus, updateLogCompleted, now,
    writeLog, rollbackTo, createLedgerEntries, checkUpdateCounts] at h
  repeat' split at h
  all_goals simp only [Prod.mk.injEq] at h
  all_goals try exact Except.noConfusion h.1
  all_goals
    (obtain ⟨h1, h2, h3, h4⟩ := h
     rename_i x3 fw hfw hfa x2 tw htw hta hbal x1 nf nt hnb xx aa hcnt hdesc
     injection h1 with h1
     subst h1
     subst h2
     subst h3
     have hc : ¬((updateWalletsVersioned s.wallets fw.id fw.version nf).1 = 0 ∨
         (updateWalletsVersioned
           (updateWalletsVersioned s.wallets fw.id fw.version nf).2
           tw.id tw.version nt).1 = 0) := by
       intro hor
       rw [if_pos hor] at hcnt
       exact Except.noConfusion hcnt
     refine ⟨fw, tw, nf, nt, by simpa [findWallet] using hfw,
       by simpa [findWallet] using htw, by simpa using hfa, by simpa using hta,
       by simpa using hbal, hnb, fun h0 => hc (Or.inl h0),
       fun h0 => hc (Or.inr h0), rfl, rfl, ?_, ?_, rfl, rfl, rfl, rfl, rfl⟩
     · rw [List.map_map]
       refine List.map_congr_left fun l hl => ?_
       by_cases hid : l.id = lg.id <;> simp [hid]
     · simp [hdesc])

/-- Replacing the freshly appended row (whose id no earlier row carries)
rewrites exactly that row. -/
theorem map_replace_append (L : List TransactionLog) (lg lgN : TransactionLog)
    (h : ∀ l ∈ L, l.id ≠ lgN.id) (hid : lg.id = lgN.id) :
    (L ++ [lg]).map (fun l => if l.id = lgN.id then lgN else l) = L ++ [lgN] := by
  rw [List.map_append]
  congr 1
  · rw [List.map_congr_left fun l hl => if_neg (h l hl)]
    exact List.map_id L
  · simp [hid]

/-- Lease acquisition touches only the lock keyspace. -/
theorem acquireLock_tables (s : St) (k : String) :
    (acquireLock s k).2.1.wallets = s.wallets ∧
    (acquireLock s k).2.1.logs = s.logs ∧
    (acquireLock s k).2.1.entries = s.entries ∧
    (acquireLock s k).2.1.nextId = s.nextId ∧
    (acquireLock s k).2.1.clock = s.clock ∧
    (acquireLock s k).2.1.cache = s.cache := by
  unfold acquireLock
  repeat' split
  all_goals simp

/-- The row found by a wallet lookup carries the looked-up id. -/
theorem findWallet_id (s : St) (id : String) (w : Wallet)
    (h : findWallet s id = some w) : w.id = id := by
  unfold findWallet at h
  simpa using List.find?_some h

/-- Wallet lookups depend on the wallet table only. -/
theorem findWallet_ext (s s' : St) (id : String) (h : s'.wallets = s.wallets) :
    findWallet s' id = findWallet s id := by
  unfold findWallet
  rw [h]

/-- Log lookups depend on the log table only. -/
theorem findLogByKey_ext (s s' : St) (k : String) (h : s'.logs = s.logs) :
    findLogByKey s' k = findLogByKey s k := by
  unfold findLogByKey
  rw [h]

/-- When no row holds the key, the durable-intent insert succeeds and
appends exactly one PENDING row carrying the fresh id and the request
fields. -/
theorem createTransactionLog_ok (s : St) (d : LogData) (lgN : TransactionLog)
    (s2 : St) (ev : List Ev)
    (hfind : findLogByKey s d.idempotencyKey = none)
    (h : createTransactionLog s d = (.ok lgN, s2, ev)) :
    lgN.id = s.nextId ∧ lgN.idempotencyKey = d.idempotencyKey ∧
    lgN.type = d.type ∧ lgN.fromWalletId = d.fromWalletId ∧
    lgN.toWalletId = d.toWalletId ∧ lgN.amount = d.amount ∧
    lgN.currency = d.currency ∧ lgN.status = .PENDING ∧
    lgN.description = d.description ∧
    s2.wallets = s.wallets ∧ s2.logs = s.logs ++ [lgN] ∧
    s2.entries = s.entries ∧ s2.cache = s.cache ∧ s2.locks = s.locks ∧
    s2.clock = s.clock + 1 ∧ s2.nextId = s.nextId + 1 ∧
    ev = [.dbLogInsert d.idempotencyKey] := by
  simp only [createTransactionLog, hfind, now, Prod.mk.injEq,
    Except.ok.injEq] at h
  obtain ⟨h1, h2, h3⟩ := h
  subst h1
  subst h2
  simp [h3.symm]

/-- Master path characterization of one `transfer` invocation against a
table whose log ids avoid the fresh id: either it is a pure replay or a
pre-insert failure (tables untouched), or it fails after the durable-intent
insert (one new FAILED row, nothing else), or it commits (one new COMPLETED
row plus its balanced DEBIT/CREDIT pair, both wallets rewritten with the
computed balances and bumped versions). -/
theorem transfer_master (s : St) (dto : TransferDto)
    (hfr : ∀ l ∈ s.logs, l.id ≠ s.nextId) :
    ((transfer s dto).2.1.wallets = s.wallets ∧
      (transfer s dto).2.1.logs = s.logs ∧
      (transfer s dto).2.1.entries = s.entries ∧
      (transfer s dto).2.1.nextId = s.nextId) ∨
    (∃ lgF, (transfer s dto).2.1.wallets = s.wallets ∧
      (transfer s dto).2.1.entries = s.entries ∧
      (transfer s dto).2.1.logs = s.logs ++ [lgF] ∧ lgF.status = .FAILED ∧
      lgF.id = s.nextId ∧ (transfer s dto).2.1.nextId = s.nextId + 1) ∨
    (∃ lgC fw tw nf nt d c,
      (transfer s dto).2.1.logs = s.logs ++ [lgC] ∧ lgC.status = .COMPLETED ∧
      lgC.id = s.nextId ∧ lgC.fromWalletId = dto.fromWalletId ∧
      lgC.toWalletId = dto.toWalletId ∧ lgC.amount = dto.amount ∧
      lgC.currency = jsOrElse dto.currency "NGN" ∧
      (transfer s dto).2.1.nextId = s.nextId + 1 ∧
      (transfer s dto).2.1.entries = s.entries ++ [d, c] ∧
      d.type = .DEBIT ∧ c.type = .CREDIT ∧
      d.walletId = lgC.fromWalletId ∧ c.walletId = lgC.toWalletId ∧
      d.amount = lgC.amount ∧ c.amount = lgC.amount ∧
      d.currency = lgC.currency ∧ c.currency = lgC.currency ∧
      d.transactionId = lgC.id ∧ c.transactionId = lgC.id ∧
      dto.fromWalletId ≠ dto.toWalletId ∧
      findWallet s dto.fromWalletId = some fw ∧
      findWallet s dto.toWalletId = some tw ∧
      fw.id = dto.fromWalletId ∧ tw.id = dto.toWalletId ∧
      computeNewBalances dto.amount fw.balance tw.balance = some (nf, nt) ∧
      d.balanceAfter = nf ∧ c.balanceAfter = nt ∧
      findWallet (transfer s dto).2.1 dto.fromWalletId =
        some { fw with balance := nf, version := fw.version + 1 } ∧
      findWallet (transfer s dto).2.1 dto.toWalletId =
        some { tw with balance := nt, version := tw.version + 1 } ∧
      ∃ rr, (transfer s dto).1 = .ok rr ∧ rr.fromWallet = ⟨fw.id, nf⟩ ∧
        rr.toWallet = ⟨tw.id, nt⟩ ∧ rr.transactionId = lgC.id) := by
  unfold transfer
  cases hchk : checkIdempotency s dto.idempotencyKey with
  | mk res evs0 =>
  cases res with
  | error e => exact Or.inl ⟨rfl, rfl, rfl, rfl⟩
  | ok o =>
  cases o with
  | some r => exact Or.inl ⟨rfl, rfl, rfl, rfl⟩
  | none =>
  have hfacts := checkIdempotency_ok_none s dto.idempotencyKey (by rw [hchk])
  cases hval : validateTransferRequest dto with
  | some e => exact Or.inl ⟨rfl, rfl, rfl, rfl⟩
  | none =>
  have hne := validate_none_ne dto hval
  cases hacq : acquireLock s dto.idempotencyKey with
  | mk got p =>
  cases p with
  | mk s1 ev1 =>
  have hs1 : s1.wallets = s.wallets ∧ s1.logs = s.logs ∧
      s1.entries = s.entries ∧ s1.nextId = s.nextId ∧ s1.clock = s.clock ∧
      s1.cache = s.cache := by
    have hal := acquireLock_tables s dto.idempotencyKey
    rw [hacq] at hal
    exact hal
  cases got with
  | false => exact Or.inl ⟨hs1.1, hs1.2.1, hs1.2.2.1, hs1.2.2.2.1⟩
  | true =>
  unfold transferTryBlock
  cases hfind : findLogByKey s1 dto.idempotencyKey with
  | some lg0 =>
    have hfind0 : findLogByKey s dto.idempotencyKey = some lg0 := by
      rw [← findLogByKey_ext s s1 dto.idempotencyKey hs1.2.1]
      exact hfind
    have hic : lg0.isCompleted = false := by
      simp [TransactionLog.isCompleted, hfacts.2 lg0 hfind0]
    simp only [createTransactionLog, hfind, hic, Bool.false_eq_true, if_false,
      releaseLock]
    exact Or.inl ⟨hs1.1, hs1.2.1, hs1.2.2.1, hs1.2.2.2.1⟩
  | none =>
    cases hcr : createTransactionLog s1
        { idempotencyKey := dto.idempotencyKey
          fromWalletId := dto.fromWalletId
          toWalletId := dto.toWalletId
          amount := dto.amount
          currency := jsOrElse dto.currency "NGN"
          description := dto.description
          type := .TRANSFER } with
    | mk res1 p1 =>
    cases p1 with
    | mk s2 ev2 =>
    cases res1 with
    | error eC =>
      exfalso
      simp only [createTransactionLog, hfind, now, Prod.mk.injEq] at hcr
      exact Except.noConfusion hcr.1
    | ok lgN =>
      obtain ⟨hid, hkey, htype, hfrom, hto, hamt, hcur, hstat, hdescr, hw2,
        hl2, he2, hc2, hk2, hclk2, hn2, hev2⟩ :=
        createTransactionLog_ok s1 _ lgN s2 ev2 hfind hcr
      have hidN : lgN.id = s.nextId := by rw [hid, hs1.2.2.2.1]
      have hsw2 : s2.wallets = s.wallets := by rw [hw2, hs1.1]
      have hsl2 : s2.logs = s.logs ++ [lgN] := by rw [hl2, hs1.2.1]
      have hse2 : s2.entries = s.entries := by rw [he2, hs1.2.2.1]
      have hsn2 : s2.nextId = s.nextId + 1 := by rw [hn2, hs1.2.2.2.1]
      cases hexec : executeTransfer s2 lgN dto with
      | mk res4 q4 =>
      cases q4 with
      | mk lgA q5 =>
      cases q5 with
      | mk s3 ev3 =>
      cases res4 with
      | error eX =>
        obtain ⟨hw3, hl3, he3, hn3, hc3, hk3, hidA, hkeyA, hamtA, hfromA,
          htoA, hcurA⟩ := executeTransfer_error s2 lgN dto eX lgA s3 ev3 hexec
        simp only [hcr, hexec, updateLogFailed, writeLog, now, releaseLock]
        refine Or.inr (Or.inl ⟨{ lgA with
          status := .FAILED
          errorMessage := some eX.message
          updatedAt := s3.clock }, ?_, ?_, ?_, rfl, ?_, ?_⟩)
        · rw [hw3, hsw2]
        · rw [he3, hse2]
        · rw [hl3, hsl2]
          exact map_replace_append s.logs lgN
            { lgA with status := .FAILED, errorMessage := some eX.message, updatedAt := s3.clock }
            (fun l hl => by simpa [hidA, hidN] using hfr l hl)
            (by simpa using hidA.symm)
        · simpa using hidA.trans hidN
        · rw [hn3, hsn2]
      | ok rOK =>
        obtain ⟨fwX, twX, nf, nt, hfwX, htwX, hfac, htac, hbal, hnb, hcnt1,
          hcnt2, hw3, hlgA, hl3, he3, hn3, hc3, hk3, hclk3, hrOK⟩ :=
          executeTransfer_ok s2 lgN dto rOK lgA s3 ev3 hexec
        subst hlgA
        subst hrOK
        have hfwid : fwX.id = dto.fromWalletId :=
          findWallet_id s2 dto.fromWalletId fwX hfwX
        have htwid : twX.id = dto.toWalletId :=
          findWallet_id s2 dto.toWalletId twX htwX
        have hfwS : findWallet s dto.fromWalletId = some fwX := by
          rw [← findWallet_ext s s2 dto.fromWalletId hsw2]
          exact hfwX
        have htwS : findWallet s dto.toWalletId = some twX := by
          rw [← findWallet_ext s s2 dto.toWalletId hsw2]
          exact htwX
        have hfwS' : s.wallets.find? (fun x => x.id == fwX.id) = some fwX := by
          have := hfwS
          unfold findWallet at this
          rw [hfwid]
          exact this
        have htwS' : s.wallets.find? (fun x => x.id == twX.id) = some twX := by
          have := htwS
          unfold findWallet at this
          rw [htwid]
          exact this
        simp only [hcr, hexec, cacheResult, releaseLock]
        refine Or.inr (Or.inr ⟨{ lgN with
            status := .COMPLETED
            completedAt := some (s2.clock + 1)
            updatedAt := s2.clock + 1 }, fwX, twX, nf, nt,
          { transactionId := lgN.id, walletId := fwX.id, type := .DEBIT,
            amount := dto.amount, currency := jsOrElse dto.currency "NGN",
            balanceAfter := nf,
            description := if dto.description.getD "" = "" then "Transfer out"
              else dto.description.getD "" },
          { transactionId := lgN.id, walletId := twX.id, type := .CREDIT,
            amount := dto.amount, currency := jsOrElse dto.currency "NGN",
            balanceAfter := nt, description := dto.description.getD "" },
          ?_, rfl, hidN, hfrom, hto, hamt, hcur, ?_, ?_,
          rfl, rfl, ?_, ?_, hamt.symm, hamt.symm, hcur.symm, hcur.symm,
          rfl, rfl, hne, hfwS, htwS, hfwid, htwid, hnb, rfl, rfl,
          ?_, ?_, _, rfl, rfl, rfl, rfl⟩)
        · -- the log table gains exactly the COMPLETED rewrite of the row
          rw [hl3, hsl2]
          exact map_replace_append s.logs lgN
            { lgN with status := .COMPLETED, completedAt := some (s2.clock + 1), updatedAt := s2.clock + 1 }
            (fun l hl => by simpa [hidN] using hfr l hl) rfl
        · rw [hn3, hsn2]
        · rw [he3, hse2]
        · -- debit leg is on the source wallet
          show fwX.id = lgN.fromWalletId
          rw [hfwid]
          exact hfrom.symm
        · -- credit leg is on the destination wallet
          show twX.id = lgN.toWalletId
          rw [htwid]
          exact hto.symm
        · -- source wallet after commit
          unfold findWallet
          show (_ : St).wallets.find? _ = _
          rw [hw3, hsw2]
          rw [updateWallets_find_other _ twX.id twX.version nt
            dto.fromWalletId (by rw [htwid]; exact hne)]
          rw [← hfwid]
          exact updateWallets_find_self s.wallets fwX.id fwX.version nf fwX
            hfwS' rfl
        · -- destination wallet after commit
          unfold findWallet
          show (_ : St).wallets.find? _ = _
          rw [hw3, hsw2]
          rw [← htwid]
          refine updateWallets_find_self _ twX.id twX.version nt twX ?_ rfl
          rw [updateWallets_find_other s.wallets fwX.id fwX.version nf
            twX.id (by rw [htwid, hfwid]; exact Ne.symm hne)]
          exact htwS'

/-- Exact-decimal trichotomy: `a <= b` is the negation of `b < a`. -/
theorem DecNum.le_eq_not_lt (a b : DecNum) :
    DecNum.le a b = !DecNum.lt b a := by
  unfold DecNum.le DecNum.lt
  by_cases h : a.n * (10 : Int) ^ b.e ≤ b.n * (10 : Int) ^ a.e
  · simp [h, not_lt.mpr h]
  · simp [h, not_le.mp h]

/-- The serializable section with both wallets found and active but an
insufficient source balance: it throws `INSUFFICIENT_FUNDS` carrying
`{available, required}` and rolls every table back (only the clock has
moved and the in-memory instance reads PROCESSING). -/
theorem executeTransfer_insufficient (s : St) (lg : TransactionLog)
    (dto : TransferDto) (fw tw : Wallet)
    (hfw : findWallet s dto.fromWalletId = some fw) (hfa : fw.isActive = true)
    (htw : findWallet s dto.toWalletId = some tw) (hta : tw.isActive = true)
    (hbal : fw.hasAvailableBalance dto.amount = false) :
    executeTransfer s lg dto =
      (.error (.insufficientFunds fw.balance dto.amount),
       { lg with status := .PROCESSING, updatedAt := s.clock },
       { s with clock := s.clock + 1 },
       [.dbWrite "transaction_logs", .lockWallet dto.fromWalletId,
        .lockWallet dto.toWalletId]) := by
  have hfw' : s.wallets.find? (fun w => w.id == dto.fromWalletId) = some fw := hfw
  have htw' : s.wallets.find? (fun w => w.id == dto.toWalletId) = some tw := htw
  simp only [executeTransfer, updateLogStatus, now, writeLog, rollbackTo,
    findWallet, hfw', htw', hfa, hta, hbal]
  rfl

/-- Once the balance check passes, no later branch of the serializable
section can produce an `INSUFFICIENT_FUNDS` error. -/
theorem executeTransfer_not_insufficient (s : St) (lg : TransactionLog)
    (dto : TransferDto) (fw : Wallet)
    (hfw : findWallet s dto.fromWalletId = some fw)
    (hbal : fw.hasAvailableBalance dto.amount = true) :
    ∀ av rq, (executeTransfer s lg dto).1 ≠ .error (.insufficientFunds av rq) := by
  intro av rq h
  have hfw' : s.wallets.find? (fun w => w.id == dto.fromWalletId) = some fw := hfw
  simp only [executeTransfer, updateLogStatus, now, writeLog, rollbackTo,
    createLedgerEntries, checkUpdateCounts, updateLogCompleted, findWallet,
    hfw', hbal] at h
  repeat' split at h
  all_goals try simp_all
  all_goals
    (rename_i heq0
     split at heq0 <;> simp_all)

/-- Claim C5: with a clean state (cache miss, no row for the key, free
lease), a valid request, and both wallets present and ACTIVE, `transfer`
fails with `INSUFFICIENT_FUNDS` carrying `{available, required}` (the
source's stored balance string and the requested amount string) exactly
when the source balance is less than the amount as exact scale-2 decimals;
and on that failure the serializable transaction has rolled back — wallet
balances and the ledger are untouched — while the freshly inserted log row
ends with status FAILED. -/
theorem c5_insufficient_funds_iff (s : St) (dto : TransferDto) (fw tw : Wallet)
    (a b : DecNum)
    (hcache : redisGetCache s dto.idempotencyKey = none)
    (hlog : findLogByKey s dto.idempotencyKey = none)
    (hlock : s.locks.find? (fun kv => kv.1 == dto.idempotencyKey) = none)
    (hfr : ∀ l ∈ s.logs, l.id ≠ s.nextId)
    (hne : dto.fromWalletId ≠ dto.toWalletId)
    (hpa : parseFloatJS dto.amount = .fin a)
    (hpos : DecNum.le a ⟨0, 0⟩ = false)
    (hmax : DecNum.lt ⟨1000000000, 0⟩ a = false)
    (hfw : findWallet s dto.fromWalletId = some fw)
    (hfa : fw.status = .ACTIVE)
    (htw : findWallet s dto.toWalletId = some tw)
    (hta : tw.status = .ACTIVE)
    (hpb : parseFloatJS fw.balance = .fin b) :
    ((transfer s dto).1 = .error (.insufficientFunds fw.balance dto.amount) ↔
      DecNum.lt b a = true) ∧
    (DecNum.lt b a = true →
      (transfer s dto).2.1.wallets = s.wallets ∧
      (transfer s dto).2.1.entries = s.entries ∧
      ∃ lgF, (transfer s dto).2.1.logs = s.logs ++ [lgF] ∧
        lgF.status = .FAILED ∧ lgF.idempotencyKey = dto.idempotencyKey ∧
        lgF.fromWalletId = dto.fromWalletId ∧
        lgF.toWalletId = dto.toWalletId ∧ lgF.amount = dto.amount) := by
  have hchk : checkIdempotency s dto.idempotencyKey =
      (.ok none, [.redisGet dto.idempotencyKey, .dbRead "transaction_logs"]) :=
    checkIdempotency_none_of s _ hcache
      (fun lg h => by rw [hlog] at h; cases h)
  have hval : validateTransferRequest dto = none := by
    simp [validateTransferRequest, hne, hpa, JsNum.jsLe, JsNum.jsGt,
      JsNum.jsLt, hpos, hmax]
  have hacq : acquireLock s dto.idempotencyKey =
      (true, { s with locks := (dto.idempotencyKey, s.clock + 30) :: s.locks },
       [.redisSetNX dto.idempotencyKey]) := by
    simp only [acquireLock, hlock]
  obtain ⟨sL, hsL⟩ : ∃ sL,
      ({ s with locks := (dto.idempotencyKey, s.clock + 30) :: s.locks } : St)
        = sL := ⟨_, rfl⟩
  rw [hsL] at hacq
  have hsLw : sL.wallets = s.wallets := by rw [← hsL]
  have hsLl : sL.logs = s.logs := by rw [← hsL]
  have hsLe : sL.entries = s.entries := by rw [← hsL]
  have hsLn : sL.nextId = s.nextId := by rw [← hsL]
  have hlogL : findLogByKey sL dto.idempotencyKey = none := by
    rw [findLogByKey_ext s sL _ hsLl]
    exact hlog
  simp only [transfer, hchk, hval, hacq, transferTryBlock]
  cases hcr : createTransactionLog sL
      { idempotencyKey := dto.idempotencyKey
        fromWalletId := dto.fromWalletId
        toWalletId := dto.toWalletId
        amount := dto.amount
        currency := jsOrElse dto.currency "NGN"
        description := dto.description
        type := .TRANSFER } with
  | mk res1 p1 =>
  cases p1 with
  | mk sB evB =>
  cases res1 with
  | error eC =>
    exfalso
    simp only [createTransactionLog, hlogL, now, Prod.mk.injEq] at hcr
    exact Except.noConfusion hcr.1
  | ok lgN =>
    obtain ⟨hid, hkey, htype, hfrom, hto, hamt, hcur, hstat, hdescr, hw2,
      hl2, he2, hc2, hk2, hclk2, hn2, hevB⟩ :=
      createTransactionLog_ok sL _ lgN sB evB hlogL hcr
    have hidN : lgN.id = s.nextId := by rw [hid, hsLn]
    have hBw : sB.wallets = s.wallets := by rw [hw2, hsLw]
    have hBl : sB.logs = s.logs ++ [lgN] := by rw [hl2, hsLl]
    have hBe : sB.entries = s.entries := by rw [he2, hsLe]
    have hfwB : findWallet sB dto.fromWalletId = some fw := by
      rw [findWallet_ext s sB _ hBw]
      exact hfw
    have htwB : findWallet sB dto.toWalletId = some tw := by
      rw [findWallet_ext s sB _ hBw]
      exact htw
    have hfaB : fw.isActive = true := by simp [Wallet.isActive, hfa]
    have htaB : tw.isActive = true := by simp [Wallet.isActive, hta]
    have hbalEq : fw.hasAvailableBalance dto.amount = !DecNum.lt b a := by
      unfold Wallet.hasAvailableBalance JsNum.jsGe
      rw [hpb, hpa]
      simp [JsNum.jsLe, DecNum.le_eq_not_lt]
    cases hlt : DecNum.lt b a with
    | true =>
      have hbal0 : fw.hasAvailableBalance dto.amount = false := by
        rw [hbalEq, hlt]
        rfl
      have hexec :=
        executeTransfer_insufficient sB lgN dto fw tw hfwB hfaB htwB htaB hbal0
      simp only [hcr, hexec, updateLogFailed, now, writeLog, releaseLock,
        Err.message]
      refine ⟨by simp, fun _ => ⟨hBw, hBe, ?_⟩⟩
      refine ⟨{ lgN with
        status := .FAILED
        errorMessage := some "Wallet balance insufficient for transfer"
        updatedAt := sB.clock + 1 }, ?_, rfl, hkey, hfrom, hto, hamt⟩
      rw [hBl]
      exact map_replace_append s.logs lgN
        { lgN with status := .FAILED, errorMessage := some "Wallet balance insufficient for transfer", updatedAt := sB.clock + 1 }
        (fun l hl => by simpa [hidN] using hfr l hl) rfl
    | false =>
      have hbal1 : fw.hasAvailableBalance dto.amount = true := by
        rw [hbalEq, hlt]
        rfl
      have hnoins :=
        executeTransfer_not_insufficient sB lgN dto fw hfwB hbal1
      simp only [hcr]
      refine ⟨⟨fun h => ?_, fun h => by cases h⟩, fun h => by cases h⟩
      cases hex : executeTransfer sB lgN dto with
      | mk r4 q4 =>
      cases q4 with
      | mk lgA q5 =>
      cases q5 with
      | mk s3 ev3 =>
      cases r4 with
      | ok rOK => simp only [hex] at h; exact Except.noConfusion h
      | error eX =>
        simp only [hex] at h
        have heX : eX = .insufficientFunds fw.balance dto.amount := by
          injection h
        exact (hnoins fw.balance dto.amount (by rw [hex, heX])).elim

/-! ## The double-entry ledger invariant -/

/-- The ledger rows recorded under one transaction id. -/
def entriesFor (s : St) (id : Nat) : List LedgerEntry :=
  s.entries.filter fun e => e.transactionId == id

/-- The exactly-two balanced rows required for a completed log: one DEBIT
on the source, one CREDIT on the destination, equal amounts and matching
currency, both tied to the log's id. -/
def balancedPairFor (lg : TransactionLog) (es : List LedgerEntry) : Prop :=
  ∃ d c, es = [d, c] ∧ d.type = .DEBIT ∧ c.type = .CREDIT ∧
    d.walletId = lg.fromWalletId ∧ c.walletId = lg.toWalletId ∧
    d.amount = lg.amount ∧ c.amount = lg.amount ∧
    d.currency = lg.currency ∧ c.currency = lg.currency ∧
    d.transactionId = lg.id ∧ c.transactionId = lg.id

/-- The global table invariant: ids are below the freshness counter, and
every COMPLETED log owns exactly its balanced DEBIT/CREDIT pair. -/
def LedgerInv (s : St) : Prop :=
  (∀ lg ∈ s.logs, lg.id < s.nextId) ∧
  (∀ e ∈ s.entries, e.transactionId < s.nextId) ∧
  (∀ lg ∈ s.logs, lg.status = .COMPLETED →
    balancedPairFor lg (entriesFor s lg.id))

/-- One action — a `Transfer` invocation or the passage of time — preserves
the ledger invariant. -/
theorem stepAct_preserves_inv (s : St) (act : Act) (h : LedgerInv s) :
    LedgerInv (stepAct s act) := by
  obtain ⟨hids, heids, hcompl⟩ := h
  cases act with
  | advance n => exact ⟨hids, heids, hcompl⟩
  | transfer dto =>
    simp only [stepAct]
    have hfr : ∀ l ∈ s.logs, l.id ≠ s.nextId :=
      fun l hl => Nat.ne_of_lt (hids l hl)
    rcases transfer_master s dto hfr with
      ⟨hw, hl, he, hn⟩ |
      ⟨lgF, hw, he, hl, hst, hidF, hn⟩ |
      ⟨lgC, fw, tw, nf, nt, d, c, hl, hst, hidC, hfromC, htoC, hamtC, hcurC,
        hn, he, hdt, hct, hdw, hcw, hda, hca, hdc, hcc, hdi, hci, hne2, hfw,
        htw, hfwi, htwi, hnb, hdb, hcb, hfw2, htw2, rr, hrr, hrf, hrt, hri⟩
    · refine ⟨?_, ?_, ?_⟩
      · intro lg hlg
        rw [hl] at hlg
        rw [hn]
        exact hids lg hlg
      · intro e he2
        rw [he] at he2
        rw [hn]
        exact heids e he2
      · intro lg hlg hc
        rw [hl] at hlg
        have hb := hcompl lg hlg hc
        unfold entriesFor at hb ⊢
        rw [he]
        exact hb
    · refine ⟨?_, ?_, ?_⟩
      · intro lg hlg
        rw [hl] at hlg
        rw [hn]
        rcases List.mem_append.mp hlg with hmem | hmem
        · exact Nat.lt_succ_of_lt (hids lg hmem)
        · rw [List.mem_singleton.mp hmem, hidF]
          exact Nat.lt_succ_self _
      · intro e he2
        rw [he] at he2
        rw [hn]
        exact Nat.lt_succ_of_lt (heids e he2)
      · intro lg hlg hc
        rw [hl] at hlg
        rcases List.mem_append.mp hlg with hmem | hmem
        · have hb := hcompl lg hmem hc
          unfold entriesFor at hb ⊢
          rw [he]
          exact hb
        · rw [List.mem_singleton.mp hmem, hst] at hc
          cases hc
    · refine ⟨?_, ?_, ?_⟩
      · intro lg hlg
        rw [hl] at hlg
        rw [hn]
        rcases List.mem_append.mp hlg with hmem | hmem
        · exact Nat.lt_succ_of_lt (hids lg hmem)
        · rw [List.mem_singleton.mp hmem, hidC]
          exact Nat.lt_succ_self _
      · intro e he2
        rw [he] at he2
        rw [hn]
        rcases List.mem_append.mp he2 with hmem | hmem
        · exact Nat.lt_succ_of_lt (heids e hmem)
        · rcases List.mem_cons.mp hmem with hmem2 | hmem2
          · rw [hmem2, hdi, hidC]
            exact Nat.lt_succ_self _
          · rw [List.mem_singleton.mp hmem2, hci, hidC]
            exact Nat.lt_succ_self _
      · intro lg hlg hc
        rw [hl] at hlg
        unfold entriesFor
        rw [he, List.filter_append]
        rcases List.mem_append.mp hlg with hmem | hmem
        · have hdne : (d.transactionId == lg.id) = false := by
            rw [hdi, hidC]
            exact beq_eq_false_iff_ne.mpr (Ne.symm (Nat.ne_of_lt (hids lg hmem)))
          have hcne : (c.transactionId == lg.id) = false := by
            rw [hci, hidC]
            exact beq_eq_false_iff_ne.mpr (Ne.symm (Nat.ne_of_lt (hids lg hmem)))
          have hpair := hcompl lg hmem hc
          unfold entriesFor at hpair
          simpa [hdne, hcne] using hpair
        · rw [List.mem_singleton.mp hmem]
          have hnil : s.entries.filter (fun e => e.transactionId == lgC.id) = [] := by
            rw [List.filter_eq_nil_iff]
            intro e hmem2
            rw [hidC]
            simp only [beq_iff_eq]
            exact Nat.ne_of_lt (heids e hmem2)
          have hdy : (d.transactionId == lgC.id) = true := by
            rw [hdi]
            exact beq_self_eq_true _
          have hcy : (c.transactionId == lgC.id) = true := by
            rw [hci]
            exact beq_self_eq_true _
          rw [hnil]
          refine ⟨d, c, ?_, hdt, hct, ?_, ?_, hda, hca, hdc, hcc, hdi, hci⟩
          · simp [hdy, hcy]
          · rw [hdw]
          · rw [hcw]

/-- Any sequence of actions preserves the ledger invariant. -/
theorem runActs_preserves_inv (s : St) (acts : List Act) (h : LedgerInv s) :
    LedgerInv (runActs s acts) := by
  induction acts generalizing s with
  | nil => exact h
  | cons a rest ih => exact ih (stepAct s a) (stepAct_preserves_inv s a h)

/-- A successful `getCachedResult` exposes the two wallet reads and the
rebuilt response: *current* balances and the row's completion time. -/
theorem getCachedResult_ok (s : St) (lg : TransactionLog)
    (rr : TransferResponseDto) (evs : List Ev)
    (h : getCachedResult s lg = (.ok rr, evs)) :
    ∃ fw tw, findWallet s lg.fromWalletId = some fw ∧
      findWallet s lg.toWalletId = some tw ∧
      rr = { success := true
             transactionId := lg.id
             status := lg.status
             fromWallet := ⟨fw.id, fw.balance⟩
             toWallet := ⟨tw.id, tw.balance⟩
             timestamp := lg.completedAt.getD lg.updatedAt } := by
  unfold getCachedResult at h
  cases hfw : findWallet s lg.fromWalletId with
  | none => simp [hfw] at h
  | some fw =>
    simp only [hfw] at h
    cases htw : findWallet s lg.toWalletId with
    | none => simp [htw] at h
    | some tw =>
      simp only [htw] at h
      by_cases hfa : fw.isActive = true
      · by_cases hta : tw.isActive = true
        · simp only [hfa, hta, not_true, if_neg, if_false, Prod.mk.injEq,
            not_false_iff, ite_false, Except.ok.injEq] at h
          exact ⟨fw, tw, rfl, rfl, h.1.symm⟩
        · simp [hfa, hta] at h
      · simp [hfa] at h

/-- Division with half-up rounding is exact on multiples. -/
theorem halfUpDivPos_exact (m d : Nat) (hd : 0 < d) :
    halfUpDivPos (m * d) d = m := by
  unfold halfUpDivPos
  have h1 : 2 * (m * d) + d = 2 * d * m + d := by ring
  rw [h1, Nat.mul_add_div (by omega), Nat.div_eq_of_lt (by omega)]
  omega

/-- Rounding a scale-4 representation of an exact cent count returns that
cent count: arithmetic at scale 2 is exact and the defensive rounding never
changes a value. -/
theorem roundHalfUpCents_scale2 (k : Int) :
    roundHalfUpCents ⟨k * 100, 4⟩ = k := by
  show (if (0 : Int) ≤ k * 100 * 100 then
      Int.ofNat (halfUpDivPos (k * 100 * 100).toNat ((10 : Nat) ^ 4))
    else -Int.ofNat (halfUpDivPos (-(k * 100 * 100)).toNat ((10 : Nat) ^ 4)))
      = k
  have hden : (10 : Nat) ^ 4 = 10000 := by norm_num
  rw [hden]
  rcases le_or_lt 0 k with hk | hk
  · rw [if_pos (by omega)]
    have htn : (k * 100 * 100).toNat = k.toNat * 10000 := by omega
    rw [htn, halfUpDivPos_exact _ _ (by norm_num)]
    show ((k.toNat : Int)) = k
    exact Int.toNat_of_nonneg hk
  · rw [if_neg (by omega)]
    have htn : (-(k * 100 * 100)).toNat = (-k).toNat * 10000 := by omega
    rw [htn, halfUpDivPos_exact _ _ (by norm_num)]
    show -(((-k).toNat : Int)) = k
    rw [Int.toNat_of_nonneg (by omega : (0 : Int) ≤ -k)]
    exact neg_neg k

/-- Subtraction of scale-2 decimals, rendered at two decimals, is the exact
integer difference of the cent counts. -/
theorem sub_toFixed2_exact (nf na : Int) :
    (DecNum.sub ⟨nf, 2⟩ ⟨na, 2⟩).toFixed2 = centsToString (nf - na) := by
  have hsub : DecNum.sub ⟨nf, 2⟩ ⟨na, 2⟩ = ⟨(nf - na) * 100, 4⟩ := by
    unfold DecNum.sub
    have h1 : nf * (10 : Int) ^ 2 - na * (10 : Int) ^ 2 = (nf - na) * 100 := by
      ring
    rw [h1]
    rfl
  rw [hsub]
  unfold DecNum.toFixed2
  rw [roundHalfUpCents_scale2]

/-- Addition of scale-2 decimals, rendered at two decimals, is the exact
integer sum of the cent counts. -/
theorem add_toFixed2_exact (nt na : Int) :
    (DecNum.add ⟨nt, 2⟩ ⟨na, 2⟩).toFixed2 = centsToString (nt + na) := by
  have hadd : DecNum.add ⟨nt, 2⟩ ⟨na, 2⟩ = ⟨(nt + na) * 100, 4⟩ := by
    unfold DecNum.add
    have h1 : nt * (10 : Int) ^ 2 + na * (10 : Int) ^ 2 = (nt + na) * 100 := by
      ring
    rw [h1]
    rfl
  rw [hadd]
  unfold DecNum.toFixed2
  rw [roundHalfUpCents_scale2]

end SycmWallet

deriving instance DecidableEq for Except

namespace SycmWallet

/-! ## Concrete example states -/

/-- Example wallet `a` with balance 1000.00 (spec scenario S1). -/
def exWalletA : Wallet :=
  { id := "a", ownerId := "u1", balance := "1000.00", currency := "NGN"
    status := .ACTIVE, version := 1 }

/-- Example wallet `b` with balance 500.00 (spec scenario S1). -/
def exWalletB : Wallet :=
  { id := "b", ownerId := "u2", balance := "500.00", currency := "NGN"
    status := .ACTIVE, version := 1 }

/-- A pristine world: the two wallets, empty tables, empty cache. -/
def exInit : St :=
  { wallets := [exWalletA, exWalletB], logs := [], entries := [], cache := []
    locks := [], clock := 0, nextId := 0 }

/-- Transfer request: 100.00 from `a` to `b` under key `t1`. -/
def exDto1 : TransferDto :=
  { idempotencyKey := "t1", fromWalletId := "a", toWalletId := "b"
    amount := "100.00", currency := none, description := none }

/-- Wallet `a` after the `t1` transfer committed. -/
def exWalletA2 : Wallet :=
  { id := "a", ownerId := "u1", balance := "900.00", currency := "NGN"
    status := .ACTIVE, version := 2 }

/-- Wallet `b` after the `t1` transfer committed. -/
def exWalletB2 : Wallet :=
  { id := "b", ownerId := "u2", balance := "600.00", currency := "NGN"
    status := .ACTIVE, version := 2 }

/-- The COMPLETED log row of the committed `t1` transfer. -/
def exLog0 : TransactionLog :=
  { id := 0, idempotencyKey := "t1", type := .TRANSFER, fromWalletId := "a"
    toWalletId := "b", amount := "100.00", currency := "NGN"
    status := .COMPLETED, description := none, errorMessage := none
    completedAt := some 2, updatedAt := 2 }

/-- The debit leg of the committed `t1` transfer. -/
def exDebit0 : LedgerEntry :=
  { transactionId := 0, walletId := "a", type := .DEBIT, amount := "100.00"
    currency := "NGN", balanceAfter := "900.00", description := "Transfer out" }

/-- The credit leg of the committed `t1` transfer. -/
def exCredit0 : LedgerEntry :=
  { transactionId := 0, walletId := "b", type := .CREDIT, amount := "100.00"
    currency := "NGN", balanceAfter := "600.00", description := "" }

/-- The world after the `t1` transfer committed, but with the Redis result
cache empty: exactly the situation of the duplicate-key branch, in which a
concurrent retry has passed the (then-empty) idempotency check and acquired
the lease, and the PENDING insert collides with the COMPLETED row. -/
def exBugState : St :=
  { wallets := [exWalletA2, exWalletB2], logs := [exLog0]
    entries := [exDebit0, exCredit0], cache := [], locks := [("t1", 35)]
    clock := 5, nextId := 1 }

/-- A second request under the distinct key `t2` (moves 200.00 more). -/
def exDto2 : TransferDto :=
  { idempotencyKey := "t2", fromWalletId := "a", toWalletId := "b"
    amount := "200.00", currency := none, description := none }

/-- The world after the `t1` transfer. -/
def exC2s1 : St := (transfer exInit exDto1).2.1

/-- The world after the `t1` transfer, then a `t2` transfer, then 25 hours
(past the 24-hour result-cache TTL). -/
def exC2s2 : St := runActs exC2s1 [.transfer exDto2, .advance 90000]

/-- Transfer request in the reverse direction: from `b` to `a`, so the
destination id is lexicographically smaller than the source id. -/
def exDtoRev : TransferDto :=
  { idempotencyKey := "t9", fromWalletId := "b", toWalletId := "a"
    amount := "10.00", currency := none, description := none }

/-- A same-wallet (invalid) transfer request. -/
def exDtoSame : TransferDto :=
  { idempotencyKey := "t7", fromWalletId := "a", toWalletId := "a"
    amount := "1.00", currency := none, description := none }

/-- A transfer request exceeding wallet `a`'s balance (scenario S3 shape). -/
def exDtoBig : TransferDto :=
  { idempotencyKey := "t5", fromWalletId := "a", toWalletId := "b"
    amount := "5000.00", currency := none, description := none }

/-- The decimal-precision boundary request: 99.99 out of 1000.00. -/
def exDto99 : TransferDto :=
  { idempotencyKey := "t99", fromWalletId := "a", toWalletId := "b"
    amount := "99.99", currency := none, description := none }

/-- A request whose amount does not parse as a number. -/
def exDtoNaN : TransferDto :=
  { idempotencyKey := "tn", fromWalletId := "a", toWalletId := "b"
    amount := "abc", currency := none, description := none }

/-! ## Claim C1 -/

/-- Claim C1 (code bug): at the duplicate-key branch with a COMPLETED
existing row, the claim (and the source's own `// Return cached result`
comment) requires the prior result to be returned with no re-entry into the
transfer protocol.  The code instead returns the `existing` row from
`createTransactionLog` and falls through to `executeTransfer`: evaluating
the try block of `transfer` at the failing input shows the response reports
freshly debited balances (800.00/700.00, not the recorded 900.00/600.00),
both wallets are debited/credited a second time, and two further ledger
entries are appended under the same `transaction_id 0`. -/
theorem c1_duplicate_completed_key_reexecutes_transfer :
    (transferTryBlock exBugState exDto1).1 =
      .ok { success := true, transactionId := 0, status := .COMPLETED
            fromWallet := ⟨"a", "800.00"⟩, toWallet := ⟨"b", "700.00"⟩
            timestamp := 7 } ∧
    (transferTryBlock exBugState exDto1).2.1.entries =
      [exDebit0, exCredit0,
       { exDebit0 with balanceAfter := "800.00" },
       { exCredit0 with balanceAfter := "700.00" }] ∧
    findWallet (transferTryBlock exBugState exDto1).2.1 "a" =
      some { exWalletA2 with balance := "800.00", version := 3 } := by
  decide

/-! ## Claim C2 -/

/-- Claim C2, counterexample: after the first success of `t1` (Result with
`newBalance 900.00/600.00`, timestamp 3), a replay of the same request
after an intervening `t2` transfer and expiry of the 24-hour result cache
is served from the database path of `checkIdempotency`, which rebuilds the
Result from the wallets' *current* balances (700.00/800.00) and the row's
`completed_at` (2): the two Results are not byte-identical, refuting the
claim that every replay after the first success returns a byte-identical
Result. -/
theorem c2_replay_not_byte_identical :
    (transfer exInit exDto1).1 =
      .ok { success := true, transactionId := 0, status := .COMPLETED
            fromWallet := ⟨"a", "900.00"⟩, toWallet := ⟨"b", "600.00"⟩
            timestamp := 3 } ∧
    (transfer exC2s2 exDto1).1 =
      .ok { success := true, transactionId := 0, status := .COMPLETED
            fromWallet := ⟨"a", "700.00"⟩, toWallet := ⟨"b", "800.00"⟩
            timestamp := 2 } ∧
    (transfer exInit exDto1).1 ≠ (transfer exC2s2 exDto1).1 := by
  decide

/-! ## Claim C3 -/

/-- Claim C3, counterexample: for the transfer from `b` to `a` the
destination id `a` is lexicographically smaller than the source id `b`,
yet the serializable section locks `b` (the source) first — the row locks
are not acquired in ascending id order. -/
theorem c3_locks_not_ascending :
    lockIds (transfer exInit exDtoRev).2.2 = ["b", "a"] ∧
    exDtoRev.toWalletId.data < exDtoRev.fromWalletId.data := by
  decide

/-! ## Claim C7 -/

/-- Claim C7, counterexample: on the invalid same-wallet request the
service does raise InvalidRequest, but only *after* the idempotency check:
the event trace of the invocation contains the Redis result-cache read
(and the log-table lookup) before the error, refuting `before any external
I/O: no result-cache read`. -/
theorem c7_validation_after_cache_read :
    (transfer exInit exDtoSame).1 =
      .error (.badRequest "Cannot transfer to the same wallet") ∧
    (transfer exInit exDtoSame).2.2 =
      [.redisGet "t7", .dbRead "transaction_logs"] := by
  decide

/-- Claim C7 (amended): an invalid request that misses the idempotency
check is rejected with the validation error right after that check: the
state is untouched (in particular no TransactionLog row is inserted) and
the invocation's trace contains no lease acquisition (`SET NX`) and no log
insert — the only external I/O is the idempotency read that already
happened. -/
theorem c7_invalid_rejected_before_lock_and_insert (s : St)
    (dto : TransferDto) (e : Err)
    (hchk : (checkIdempotency s dto.idempotencyKey).1 = .ok none)
    (hval : validateTransferRequest dto = some e) :
    (transfer s dto).1 = .error e ∧ (transfer s dto).2.1 = s ∧
    (∀ k, Ev.redisSetNX k ∉ (transfer s dto).2.2) ∧
    (∀ k, Ev.dbLogInsert k ∉ (transfer s dto).2.2) := by
  cases hchk2 : checkIdempotency s dto.idempotencyKey with
  | mk res evs =>
    have hres : res = .ok none := by rw [hchk2] at hchk; exact hchk
    subst hres
    simp only [transfer, hchk2, hval]
    refine ⟨by trivial, by trivial, fun k => ?_, fun k => ?_⟩
    · have hro := (checkIdempotency_events_read_only s dto.idempotencyKey k).1
      rw [hchk2] at hro
      exact hro
    · have hro := (checkIdempotency_events_read_only s dto.idempotencyKey k).2
      rw [hchk2] at hro
      exact hro

/-- Witness for the amended C7 at the same-wallet request of scenario S6:
no lock event and no insert event appear, the state is unchanged, and the
error is the validation error. -/
theorem c7_invalid_rejected_witness :
    (transfer exInit exDtoSame).2.1 = exInit ∧
    Ev.redisSetNX "t7" ∉ (transfer exInit exDtoSame).2.2 ∧
    Ev.dbLogInsert "t7" ∉ (transfer exInit exDtoSame).2.2 := by
  have h := c7_invalid_rejected_before_lock_and_insert exInit exDtoSame
    (.badRequest "Cannot transfer to the same wallet") (by decide) (by decide)
  exact ⟨h.2.1, h.2.2.1 "t7", h.2.2.2 "t7"⟩

/-! ## Claim C3, amended -/

/-- Claim C3 (amended): inside the serializable section the row locks are
acquired in request order — the source wallet first, then the destination —
regardless of the lexicographic order of the ids (no id-ordered acquisition
exists in the code). -/
theorem c3_lock_order_source_then_destination (s : St) (lg : TransactionLog)
    (dto : TransferDto) :
    lockIds (executeTransfer s lg dto).2.2.2 = [dto.fromWalletId] ∨
    lockIds (executeTransfer s lg dto).2.2.2 =
      [dto.fromWalletId, dto.toWalletId] := by
  simp only [executeTransfer, updateLogStatus, updateLogCompleted, now,
    writeLog, rollbackTo, createLedgerEntries, checkUpdateCounts]
  repeat' split
  all_goals simp [lockIds]

/-! ## Claim C2, amended -/

/-- Claim C2 (amended): a replay that hits the Redis result cache returns
the cached Result byte-for-byte and leaves the state untouched; a replay
that misses the cache but finds the COMPLETED row leaves the state
untouched (so no ledger entries beyond the original two are ever produced)
and returns either a wallet-state error or a Result rebuilt from the row —
same `transaction_id` and status, but with the wallets' *current* balances
and the row's `completed_at` as the timestamp, which need not be
byte-identical to the first Result. -/
theorem c2_replay_returns_cached_or_rebuilt (s : St) (dto : TransferDto) :
    (∀ r, redisGetCache s dto.idempotencyKey = some r →
      transfer s dto = (.ok r, s, [.redisGet dto.idempotencyKey])) ∧
    (∀ lg, redisGetCache s dto.idempotencyKey = none →
      findLogByKey s dto.idempotencyKey = some lg →
      lg.status = .COMPLETED →
      (transfer s dto).2.1 = s ∧
      ((∃ e, (transfer s dto).1 = .error e) ∨
        ∃ fw tw, findWallet s lg.fromWalletId = some fw ∧
          findWallet s lg.toWalletId = some tw ∧
          (transfer s dto).1 = .ok
            { success := true
              transactionId := lg.id
              status := lg.status
              fromWallet := ⟨fw.id, fw.balance⟩
              toWallet := ⟨tw.id, tw.balance⟩
              timestamp := lg.completedAt.getD lg.updatedAt })) := by
  constructor
  · intro r hr
    simp only [transfer, checkIdempotency, hr]
  · intro lg hc hl hcomp
    have hic : lg.isCompleted = true := by
      simp [TransactionLog.isCompleted, hcomp]
    simp only [transfer, checkIdempotency, hc, hl, hic, if_true]
    cases hg : getCachedResult s lg with
    | mk res evs =>
      cases res with
      | error e => exact ⟨rfl, Or.inl ⟨e, rfl⟩⟩
      | ok rr =>
        obtain ⟨fw, tw, hfw, htw, hrr⟩ := getCachedResult_ok s lg rr evs hg
        exact ⟨rfl, Or.inr ⟨fw, tw, hfw, htw, by rw [hrr]⟩⟩

/-- Witness for the amended C2: the immediate replay of `t1` is served
byte-identically from the cache with no state change, and the late replay
(cache expired, COMPLETED row present) also leaves the state unchanged. -/
theorem c2_replay_witness :
    transfer exC2s1 exDto1 =
      (.ok { success := true, transactionId := 0, status := .COMPLETED
             fromWallet := ⟨"a", "900.00"⟩, toWallet := ⟨"b", "600.00"⟩
             timestamp := 3 }, exC2s1, [.redisGet "t1"]) ∧
    (transfer exC2s2 exDto1).2.1 = exC2s2 := by
  constructor
  · exact (c2_replay_returns_cached_or_rebuilt exC2s1 exDto1).1 _ (by decide)
  · exact ((c2_replay_returns_cached_or_rebuilt exC2s2 exDto1).2 exLog0
      (by decide) (by decide) (by decide)).1

/-! ## Claim C4 -/

/-- Claim C4: across any sequence of transfer invocations and clock
advances from a state satisfying the ledger invariant, every COMPLETED
TransactionLog owns exactly two LedgerEntry rows with its id — one DEBIT on
`from_wallet_id`, one CREDIT on `to_wallet_id`, both with the transfer's
amount and matching currency; moreover whenever an invocation creates
entries, the DEBIT's `balance_after` is exactly the source wallet's new
committed balance and the CREDIT's is the destination's. -/
theorem c4_completed_logs_have_balanced_pairs :
    (∀ s acts, LedgerInv s → LedgerInv (runActs s acts)) ∧
    (∀ s dto r s2 tr, LedgerInv s → transfer s dto = (.ok r, s2, tr) →
      s2.entries ≠ s.entries →
      ∃ d c fw2 tw2, s2.entries = s.entries ++ [d, c] ∧
        d.type = .DEBIT ∧ c.type = .CREDIT ∧
        findWallet s2 d.walletId = some fw2 ∧ fw2.balance = d.balanceAfter ∧
        findWallet s2 c.walletId = some tw2 ∧ tw2.balance = c.balanceAfter) := by
  constructor
  · intro s acts h
    exact runActs_preserves_inv s acts h
  · intro s dto r s2 tr hinv heq hne0
    have hfr : ∀ l ∈ s.logs, l.id ≠ s.nextId :=
      fun l hl => Nat.ne_of_lt (hinv.1 l hl)
    have hs2 : s2 = (transfer s dto).2.1 := by rw [heq]
    rcases transfer_master s dto hfr with
      ⟨hw, hl, he, hn⟩ |
      ⟨lgF, hw, he, hl, hst, hidF, hn⟩ |
      ⟨lgC, fw, tw, nf, nt, d, c, hl, hst, hidC, hfromC, htoC, hamtC, hcurC,
        hn, he, hdt, hct, hdw, hcw, hda, hca, hdc, hcc, hdi, hci, hne2, hfw,
        htw, hfwi, htwi, hnb, hdb, hcb, hfw2, htw2, rr, hrr, hrf, hrt, hri⟩
    · exact absurd (by rw [hs2]; exact he) hne0
    · exact absurd (by rw [hs2]; exact he) hne0
    · refine ⟨d, c, { fw with balance := nf, version := fw.version + 1 },
        { tw with balance := nt, version := tw.version + 1 },
        by rw [hs2]; exact he, hdt, hct, ?_, hdb.symm, ?_, hcb.symm⟩
      · rw [hs2, hdw, hfromC]
        exact hfw2
      · rw [hs2, hcw, htoC]
        exact htw2

/-- Witness for C4 at spec scenario S1: the pristine two-wallet world
satisfies the invariant, still satisfies it after the `t1` transfer, and
that transfer's two fresh entries carry the committed balances. -/
theorem c4_balanced_pairs_witness :
    LedgerInv (runActs exInit [Act.transfer exDto1]) ∧
    ∃ d c fw2 tw2,
      (transfer exInit exDto1).2.1.entries = exInit.entries ++ [d, c] ∧
      d.type = .DEBIT ∧ c.type = .CREDIT ∧
      findWallet (transfer exInit exDto1).2.1 d.walletId = some fw2 ∧
      fw2.balance = d.balanceAfter ∧
      findWallet (transfer exInit exDto1).2.1 c.walletId = some tw2 ∧
      tw2.balance = c.balanceAfter := by
  have hinv : LedgerInv exInit := by
    refine ⟨?_, ?_, ?_⟩ <;> simp [exInit, LedgerInv]
  constructor
  · exact c4_completed_logs_have_balanced_pairs.1 exInit [Act.transfer exDto1]
      hinv
  · exact c4_completed_logs_have_balanced_pairs.2 exInit exDto1
      { success := true, transactionId := 0, status := .COMPLETED
        fromWallet := ⟨"a", "900.00"⟩, toWallet := ⟨"b", "600.00"⟩
        timestamp := 3 }
      (transfer exInit exDto1).2.1 (transfer exInit exDto1).2.2 hinv
      (by decide) (by decide)

/-! ## Claim C6 -/

/-- Claim C6: the wallet update carries the version predicate — it touches
exactly the rows matching both the primary key and the expected version and
rewrites them to the bumped version; a stale expected version touches zero
rows and leaves the table unchanged; a zero count on either update throws
`VersionConflict` (and any error inside the serializable section rolls all
tables back); and every completed transfer strictly increases both wallets'
versions. -/
theorem c6_version_predicate_and_monotonicity :
    (∀ ws id v nb,
      (updateWalletsVersioned ws id v nb).1 =
        (ws.filter fun w => decide (w.id = id ∧ w.version = v)).length ∧
      (updateWalletsVersioned ws id v nb).2 =
        ws.map fun w => if w.id = id ∧ w.version = v then
          { w with balance := nb, version := v + 1 } else w) ∧
    (∀ ws id v nb, (∀ w ∈ ws, w.id = id → w.version ≠ v) →
      updateWalletsVersioned ws id v nb = (0, ws)) ∧
    (∀ m n, checkUpdateCounts m n =
      .error (.conflict
        "Wallet was modified by another transaction. Please retry.") ↔
      m = 0 ∨ n = 0) ∧
    (∀ s lg dto e lg2 s2 tr,
      executeTransfer s lg dto = (.error e, lg2, s2, tr) →
      s2.wallets = s.wallets ∧ s2.logs = s.logs ∧ s2.entries = s.entries) ∧
    (∀ s dto r s2 tr, (∀ l ∈ s.logs, l.id ≠ s.nextId) →
      transfer s dto = (.ok r, s2, tr) → s2.wallets ≠ s.wallets →
      ∃ fw tw fw2 tw2,
        findWallet s dto.fromWalletId = some fw ∧
        findWallet s dto.toWalletId = some tw ∧
        findWallet s2 dto.fromWalletId = some fw2 ∧
        findWallet s2 dto.toWalletId = some tw2 ∧
        fw2.version = fw.version + 1 ∧ tw2.version = tw.version + 1 ∧
        fw.version < fw2.version ∧ tw.version < tw2.version) := by
  refine ⟨updateWallets_spec, updateWallets_zero_of_stale, ?_, ?_, ?_⟩
  · intro m n
    constructor
    · intro h
      by_cases hc : m = 0 ∨ n = 0
      · exact hc
      · rw [checkUpdateCounts, if_neg hc] at h
        exact Except.noConfusion h
    · intro h
      rw [checkUpdateCounts, if_pos h]
  · intro s lg dto e lg2 s2 tr h
    obtain ⟨h1, h2, h3, _⟩ := executeTransfer_error s lg dto e lg2 s2 tr h
    exact ⟨h1, h2, h3⟩
  · intro s dto r s2 tr hfr heq hwne
    have hs2 : s2 = (transfer s dto).2.1 := by rw [heq]
    rcases transfer_master s dto hfr with
      ⟨hw, hl, he, hn⟩ |
      ⟨lgF, hw, he, hl, hst, hidF, hn⟩ |
      ⟨lgC, fw, tw, nf, nt, d, c, hl, hst, hidC, hfromC, htoC, hamtC, hcurC,
        hn, he, hdt, hct, hdw, hcw, hda, hca, hdc, hcc, hdi, hci, hne2, hfw,
        htw, hfwi, htwi, hnb, hdb, hcb, hfw2, htw2, rr, hrr, hrf, hrt, hri⟩
    · exact absurd (by rw [hs2]; exact hw) hwne
    · exact absurd (by rw [hs2]; exact hw) hwne
    · refine ⟨fw, tw, { fw with balance := nf, version := fw.version + 1 },
        { tw with balance := nt, version := tw.version + 1 },
        hfw, htw, by rw [hs2]; exact hfw2, by rw [hs2]; exact htw2,
        rfl, rfl, Nat.lt_succ_self _, Nat.lt_succ_self _⟩

/-- Witness for C6: concrete instances of all five conjuncts, including the
version bump from 1 to 2 on both wallets of scenario S1. -/
theorem c6_version_witness :
    updateWalletsVersioned [exWalletA] "a" 7 "1.00" = (0, [exWalletA]) ∧
    (checkUpdateCounts 0 1 =
      .error (.conflict
        "Wallet was modified by another transaction. Please retry.")) ∧
    ∃ fw tw fw2 tw2,
      findWallet exInit "a" = some fw ∧ findWallet exInit "b" = some tw ∧
      findWallet (transfer exInit exDto1).2.1 "a" = some fw2 ∧
      findWallet (transfer exInit exDto1).2.1 "b" = some tw2 ∧
      fw2.version = fw.version + 1 ∧ tw2.version = tw.version + 1 ∧
      fw.version < fw2.version ∧ tw.version < tw2.version := by
  refine ⟨?_, ?_, ?_⟩
  · exact c6_version_predicate_and_monotonicity.2.1 [exWalletA] "a" 7 "1.00"
      (by decide)
  · exact (c6_version_predicate_and_monotonicity.2.2.1 0 1).mpr (Or.inl rfl)
  · exact c6_version_predicate_and_monotonicity.2.2.2.2 exInit exDto1
      { success := true, transactionId := 0, status := .COMPLETED
        fromWallet := ⟨"a", "900.00"⟩, toWallet := ⟨"b", "600.00"⟩
        timestamp := 3 }
      (transfer exInit exDto1).2.1 (transfer exInit exDto1).2.2
      (by decide) (by decide) (by decide)

/-! ## Claim C8 -/

/-- Claim C8, counterexample (negation of the claimed guard): the ledger
append operation has no rejection path at all — there is no input on which
it declines to perform its two inserts, so no verify-and-reject step
precedes them. -/
theorem c8_no_rejection_path :
    ¬∃ s tid fwid twid amt cur fba tba dsc,
      ((createLedgerEntries s tid fwid twid amt cur fba tba dsc).1).entries.length ≠
        s.entries.length + 2 := by
  rintro ⟨s, tid, fwid, twid, amt, cur, fba, tba, dsc, hlen⟩
  exact hlen (by simp [createLedgerEntries])

/-- Claim C8 (amended): `createLedgerEntries` performs no verification; it
unconditionally issues exactly two inserts, and the pair it constructs is
balanced by construction — one DEBIT on the source and one CREDIT on the
destination, sharing the single amount, currency and transaction id it was
given. -/
theorem c8_pair_balanced_by_construction (s : St) (tid : Nat)
    (fwid twid amt cur fba tba dsc : String) :
    ∃ d c,
      ((createLedgerEntries s tid fwid twid amt cur fba tba dsc).1).entries =
        s.entries ++ [d, c] ∧
      d.type = .DEBIT ∧ c.type = .CREDIT ∧ d.amount = amt ∧ c.amount = amt ∧
      d.currency = cur ∧ c.currency = cur ∧ d.transactionId = tid ∧
      c.transactionId = tid ∧ d.walletId = fwid ∧ c.walletId = twid ∧
      (createLedgerEntries s tid fwid twid amt cur fba tba dsc).2 =
        [.dbWrite "ledger_entries", .dbWrite "ledger_entries"] :=
  ⟨_, _, rfl, rfl, rfl, rfl, rfl, rfl, rfl, rfl, rfl, rfl, rfl, rfl⟩

/-! ## Claim C5, witness -/

/-- Witness for C5 at spec scenario S3's shape: transferring 5000.00 from a
1000.00 balance fails with `INSUFFICIENT_FUNDS{available:"1000.00",
required:"5000.00"}`, balances and ledger are untouched, and the log row
ends FAILED. -/
theorem c5_insufficient_witness :
    (transfer exInit exDtoBig).1 =
      .error (.insufficientFunds "1000.00" "5000.00") ∧
    (transfer exInit exDtoBig).2.1.wallets = exInit.wallets ∧
    (transfer exInit exDtoBig).2.1.entries = exInit.entries ∧
    ∃ lgF, (transfer exInit exDtoBig).2.1.logs = exInit.logs ++ [lgF] ∧
      lgF.status = .FAILED := by
  have h := c5_insufficient_funds_iff exInit exDtoBig exWalletA exWalletB
    ⟨500000, 2⟩ ⟨100000, 2⟩ (by decide) (by decide) (by decide) (by decide)
    (by decide) (by decide) (by decide) (by decide) (by decide) (by decide)
    (by decide) (by decide) (by decide)
  refine ⟨h.1.mpr (by decide), (h.2 (by decide)).1, (h.2 (by decide)).2.1, ?_⟩
  obtain ⟨lgF, hl, hs, _⟩ := (h.2 (by decide)).2.2
  exact ⟨lgF, hl, hs⟩

/-! ## Claim C9 -/

/-- Claim C9: the new balances are computed in exact scale-2 decimal
arithmetic — for any scale-2 operands the rendered results are exactly the
integer cent difference and sum — and concretely a 99.99 transfer from
1000.00 to 500.00 yields exactly 900.01 and 599.99 in the Result. -/
theorem c9_decimal_arithmetic_exact :
    (∀ amt fb tb na nf nt,
      decimalParse amt = some ⟨na, 2⟩ → decimalParse fb = some ⟨nf, 2⟩ →
      decimalParse tb = some ⟨nt, 2⟩ →
      computeNewBalances amt fb tb =
        some (centsToString (nf - na), centsToString (nt + na))) ∧
    (transfer exInit exDto99).1 = .ok
      { success := true, transactionId := 0, status := .COMPLETED
        fromWallet := ⟨"a", "900.01"⟩, toWallet := ⟨"b", "599.99"⟩
        timestamp := 3 } := by
  constructor
  · intro amt fb tb na nf nt ha hf ht
    simp only [computeNewBalances, ha, hf, ht]
    rw [sub_toFixed2_exact, add_toFixed2_exact]
  · decide

/-- Witness for C9's general conjunct at the spec's literals. -/
theorem c9_decimal_witness :
    computeNewBalances "99.99" "1000.00" "500.00" =
      some ("900.01", "599.99") := by
  have h := c9_decimal_arithmetic_exact.1 "99.99" "1000.00" "500.00"
    9999 100000 50000 (by decide) (by decide) (by decide)
  exact h.trans (by decide)

/-! ## Claim C10 -/

/-- Claim C10: a non-numeric amount string (`parseFloat` yields `NaN`)
defeats both range guards — `NaN <= 0` and `NaN > 1e9` are false — so
`validateTransferRequest` raises nothing and the transfer proceeds to the
durable-intent step: the log insert is issued and a row carrying the
unparseable amount string exists afterwards. -/
theorem c10_nan_amount_passes_validation (s : St) (dto : TransferDto)
    (hnan : parseFloatJS dto.amount = .nan)
    (hne : dto.fromWalletId ≠ dto.toWalletId)
    (hcache : redisGetCache s dto.idempotencyKey = none)
    (hlog : findLogByKey s dto.idempotencyKey = none)
    (hlock : s.locks.find? (fun kv => kv.1 == dto.idempotencyKey) = none)
    (hfr : ∀ l ∈ s.logs, l.id ≠ s.nextId) :
    validateTransferRequest dto = none ∧
    Ev.dbLogInsert dto.idempotencyKey ∈ (transfer s dto).2.2 ∧
    ∃ lg ∈ (transfer s dto).2.1.logs,
      lg.idempotencyKey = dto.idempotencyKey ∧ lg.amount = dto.amount := by
  have hval : validateTransferRequest dto = none := by
    simp [validateTransferRequest, hne, hnan, JsNum.jsLe, JsNum.jsGt,
      JsNum.jsLt]
  have hchk : checkIdempotency s dto.idempotencyKey =
      (.ok none, [.redisGet dto.idempotencyKey, .dbRead "transaction_logs"]) :=
    checkIdempotency_none_of s _ hcache
      (fun lg h => by rw [hlog] at h; cases h)
  have hacq : acquireLock s dto.idempotencyKey =
      (true, { s with locks := (dto.idempotencyKey, s.clock + 30) :: s.locks },
       [.redisSetNX dto.idempotencyKey]) := by
    simp only [acquireLock, hlock]
  obtain ⟨sL, hsL⟩ : ∃ sL,
      ({ s with locks := (dto.idempotencyKey, s.clock + 30) :: s.locks } : St)
        = sL := ⟨_, rfl⟩
  rw [hsL] at hacq
  have hsLl : sL.logs = s.logs := by rw [← hsL]
  have hsLn : sL.nextId = s.nextId := by rw [← hsL]
  have hlogL : findLogByKey sL dto.idempotencyKey = none := by
    rw [findLogByKey_ext s sL _ hsLl]
    exact hlog
  refine ⟨hval, ?_⟩
  simp only [transfer, hchk, hval, hacq, transferTryBlock]
  cases hcr : createTransactionLog sL
      { idempotencyKey := dto.idempotencyKey
        fromWalletId := dto.fromWalletId
        toWalletId := dto.toWalletId
        amount := dto.amount
        currency := jsOrElse dto.currency "NGN"
        description := dto.description
        type := .TRANSFER } with
  | mk res1 p1 =>
  cases p1 with
  | mk sB evB =>
  cases res1 with
  | error eC =>
    exfalso
    simp only [createTransactionLog, hlogL, now, Prod.mk.injEq] at hcr
    exact Except.noConfusion hcr.1
  | ok lgN =>
    obtain ⟨hid, hkey, htype, hfrom, hto, hamt, hcur, hstat, hdescr, hw2,
      hl2, he2, hc2, hk2, hclk2, hn2, hevB⟩ :=
      createTransactionLog_ok sL _ lgN sB evB hlogL hcr
    have hidN : lgN.id = s.nextId := by rw [hid, hsLn]
    have hBl : sB.logs = s.logs ++ [lgN] := by rw [hl2, hsLl]
    cases hexec : executeTransfer sB lgN dto with
    | mk res4 q4 =>
    cases q4 with
    | mk lgA q5 =>
    cases q5 with
    | mk s3 ev3 =>
    cases res4 with
    | error eX =>
      obtain ⟨hw3, hl3, he3, hn3, hc3, hk3, hidA, hkeyA, hamtA, hfromA,
        htoA, hcurA⟩ := executeTransfer_error sB lgN dto eX lgA s3 ev3 hexec
      simp only [hcr, hexec, updateLogFailed, now, writeLog, releaseLock]
      refine ⟨by simp [hevB], ?_⟩
      refine ⟨{ lgA with status := .FAILED, errorMessage := some eX.message, updatedAt := s3.clock }, ?_, ?_, ?_⟩
      · rw [hl3, hBl]
        rw [map_replace_append s.logs lgN
          { lgA with status := .FAILED, errorMessage := some eX.message, updatedAt := s3.clock }
          (fun l hl => by simpa [hidA, hidN] using hfr l hl)
          (by simpa using hidA.symm)]
        exact List.mem_append_right _ (List.mem_singleton_self _)
      · show lgA.idempotencyKey = dto.idempotencyKey
        rw [hkeyA]
        exact hkey
      · show lgA.amount = dto.amount
        rw [hamtA]
        exact hamt
    | ok rOK =>
      obtain ⟨fwX, twX, nf, nt, hfwX, htwX, hfac, htac, hbal, hnb, hcnt1,
        hcnt2, hw3, hlgA, hl3, he3, hn3, hc3, hk3, hclk3, hrOK⟩ :=
        executeTransfer_ok sB lgN dto rOK lgA s3 ev3 hexec
      subst hlgA
      simp only [hcr, hexec, cacheResult, releaseLock]
      refine ⟨by simp [hevB], ?_⟩
      refine ⟨{ lgN with
        status := .COMPLETED
        completedAt := some (sB.clock + 1)
        updatedAt := sB.clock + 1 }, ?_, hkey, hamt⟩
      rw [hl3, hBl]
      rw [map_replace_append s.logs lgN
        { lgN with status := .COMPLETED, completedAt := some (sB.clock + 1), updatedAt := sB.clock + 1 }
        (fun l hl => by simpa [hidN] using hfr l hl) rfl]
      exact List.mem_append_right _ (List.mem_singleton_self _)

/-- Witness for C10: the request with amount `"abc"` passes validation, the
insert is issued, and a row with amount `"abc"` exists afterwards. -/
theorem c10_nan_witness :
    validateTransferRequest exDtoNaN = none ∧
    Ev.dbLogInsert "tn" ∈ (transfer exInit exDtoNaN).2.2 ∧
    ∃ lg ∈ (transfer exInit exDtoNaN).2.1.logs,
      lg.idempotencyKey = "tn" ∧ lg.amount = "abc" := by
  exact c10_nan_amount_passes_validation exInit exDtoNaN (by decide)
    (by decide) (by decide) (by decide) (by decide) (by decide)

end SycmWallet
